import Mathlib

/-!
# eMMC write test (`src/emmc_test/main.c`): embedding and verified properties

The C program pre-creates `NUM_FILES` record files, persists the `ring_info`
blob once, partitions the record ids over `num_threads` writer threads and
runs them together with a monitor thread (periodic flush, mode 1) and a
statistics thread until the configured duration has elapsed.

The embedding is shallow: every C function becomes a Lean function over an
explicit program state.  Outcomes of library and system calls (`malloc`,
`fopen`, `fwrite`, `time`, `atoi`, ...) are inputs of the model.  Threads are
interleaved by a scheduler that picks, event by event, which thread performs
its next atomic step.
-/

namespace EmmcTest

/-! ## Constants (`#define`s of main.c, lines 20-25) -/

/-- The macro `NUM_FILES` (line 20). -/
def NUM_FILES : Int := 5000

/-- The macro `INFO_SIZE`, `(440 * 1024)` (line 23). -/
def INFO_SIZE : Nat := 440 * 1024

/-- The macro `DAT_SIZE` (line 24). -/
def DAT_SIZE : Nat := 64

/-- The macro `FLUSH_INTERVAL_SEC` (line 25). -/
def FLUSH_INTERVAL_SEC : Int := 30

/-- Number of values of a `uint64_t`; arithmetic on the two 64-bit counters
is taken modulo this. -/
def UINT64_MOD : Nat := 18446744073709551616

/-- Largest value of a C `int` (32 bits). -/
def INT_MAX : Int := 2147483647

/-! ## The partition of record ids (main, lines 277-294) -/

/-- Line 277, `int files_per_thread = NUM_FILES / num_threads;`.  C division
of `int`s truncates toward zero. -/
def files_per_thread (num_files num_threads : Int) : Int :=
  Int.tdiv num_files num_threads

/-- Line 278, `int remainder = NUM_FILES % num_threads;`. -/
def remainder (num_files num_threads : Int) : Int :=
  Int.tmod num_files num_threads

/-- The value stored in `arg->start_id` for loop index `i`, from the variables
`files_per_thread` and `remainder` of `main` (lines 284, 288-293). -/
def arg_start_id (files_per_thread remainder i : Int) : Int :=
  let s := i * files_per_thread
  if i < remainder then s + i else s + remainder

/-- The value stored in `arg->end_id` for loop index `i` (lines 285, 288-293). -/
def arg_end_id (files_per_thread remainder i : Int) : Int :=
  let e := (i + 1) * files_per_thread - 1
  if i < remainder then e + (i + 1) else e + remainder

/-- First id of thread `i` when `num_files` records are split over
`num_threads` threads. -/
def start_id (num_files num_threads i : Int) : Int :=
  arg_start_id (files_per_thread num_files num_threads) (remainder num_files num_threads) i

/-- Last id of thread `i` when `num_files` records are split over
`num_threads` threads. -/
def end_id (num_files num_threads i : Int) : Int :=
  arg_end_id (files_per_thread num_files num_threads) (remainder num_files num_threads) i

/-- Number of ids in the inclusive range `[start_id, end_id]` of thread `i`,
the ids visited by `for (id = start_id; id <= end_id; id++)` (line 92). -/
def range_size (num_files num_threads i : Int) : Int :=
  end_id num_files num_threads i - start_id num_files num_threads i + 1

/-! ## Shared state (main.c, lines 33-37) -/

/-- The file-scope variables of main.c.  `g_running` only ever holds 1 or 0
and is kept as a `Bool`; `g_files_updated` is an `int`; the two counters are
`uint64_t` and are kept as naturals below `UINT64_MOD`. -/
structure Globals where
  g_running : Bool
  g_files_updated : Int
  g_write_count : Nat
  g_info_write_count : Nat
  deriving DecidableEq

/-- Initial values of the file-scope variables. -/
def Globals.initial : Globals :=
  { g_running := true, g_files_updated := 0, g_write_count := 0, g_info_write_count := 0 }

/-- The increment `x++` of a `uint64_t`. -/
def u64_incr (x : Nat) : Nat := (x + 1) % UINT64_MOD

/-- The product `x * y` of `uint64_t` operands. -/
def u64_mul (x y : Nat) : Nat := (x * y) % UINT64_MOD

/-- The sum `x + y` of `uint64_t` operands. -/
def u64_add (x y : Nat) : Nat := (x + y) % UINT64_MOD

/-- The difference `x - y` of `uint64_t` operands. -/
def u64_sub (x y : Nat) : Nat := (x + UINT64_MOD - y % UINT64_MOD) % UINT64_MOD

/-- The increment `x++` of an `int`.  Overflow of a signed `int` is undefined
in C; the model takes the wrap-around of the usual targets, and the theorems
below only speak about values below `INT_MAX`. -/
def int_incr (x : Int) : Int := if x = INT_MAX then -INT_MAX - 1 else x + 1

/-- What the program does to the outside world, in program order: calls of
`write_info_file` with their return value, record files rewritten or failed,
resources created by `main`, and the lines printed. -/
inductive Effect where
  /-- One call of `write_info_file` that returned `ret`. -/
  | info_file (ret : Int)
  /-- Line 97: `fopen` of record `id` failed. -/
  | dat_open_failed (id : Int)
  /-- Line 108: `fwrite` to record `id` failed. -/
  | dat_write_failed (id : Int)
  /-- Lines 107-114: the 64 bytes of record `id` were rewritten. -/
  | dat_written (id : Int)
  /-- Line 152: the monitor's report of a flush. -/
  | flushed (elapsed updated : Int)
  /-- Line 186: one line of the statistics thread. -/
  | stats_line (dat_writes dat_bytes info_writes info_bytes total_bytes : Nat)
  /-- Lines 207-210: usage message. -/
  | usage
  /-- Line 220: `num_threads` out of range. -/
  | threads_error
  /-- Line 239: the data directory exists after a successful `mkdir`
  (or `EEXIST`). -/
  | mkdir_data
  /-- Lines 246-263: record files `0 .. n-1` were created. -/
  | dat_created (n : Int)
  /-- Line 298, 312, 316: a thread was created. -/
  | thread_created
  /-- Lines 340-345: the byte figures of the final summary (records, blob,
  total), before their conversion to megabytes. -/
  | results (dat_writes info_writes dat_bytes info_bytes total_bytes : Nat)
  deriving DecidableEq

/-! ## `write_info_file` (lines 46-81) -/

/-- Outcomes of the library calls inside one call of `write_info_file`. -/
structure InfoOutcome where
  /-- Line 47: `malloc(INFO_SIZE)` returned a buffer. -/
  malloc_ok : Bool
  /-- Line 57: `fopen(INFO_FILE, "w")` returned a stream. -/
  fopen_ok : Bool
  /-- Line 64: `fwrite` returned `INFO_SIZE`. -/
  fwrite_ok : Bool
  /-- Line 71: `fflush` returned 0. -/
  fflush_ok : Bool
  /-- Line 72: `fsync` returned 0. -/
  fsync_ok : Bool
  deriving DecidableEq

/-- All calls succeed. -/
def InfoOutcome.good : InfoOutcome :=
  { malloc_ok := true, fopen_ok := true, fwrite_ok := true, fflush_ok := true, fsync_ok := true }

/-- The function `int write_info_file(void)`: the return value and the file-scope variables
after the call.  The results of `fflush` and `fsync` (lines 71-72) are not
inspected by the code. -/
def write_info_file (oc : InfoOutcome) (g : Globals) : Int × Globals :=
  if oc.malloc_ok = false then (-1, g)
  else if oc.fopen_ok = false then (-1, g)
  else if oc.fwrite_ok = false then (-1, g)
  else (0, { g with g_info_write_count := u64_incr g.g_info_write_count })

/-! ## `write_thread` (lines 84-133) -/

/-- The type `thread_arg_t` (lines 27-31). -/
structure thread_arg_t where
  start_id : Int
  end_id : Int
  mode : Int
  deriving DecidableEq

/-- Program points of `write_thread` between which other threads may run. -/
inductive WritePc where
  /-- Line 90: `while (g_running)`. -/
  | while_test
  /-- Line 92: `id <= targ->end_id && g_running`. -/
  | for_test
  /-- Lines 93-114: open the record file and write it. -/
  | body
  /-- Lines 116-119: the critical section incrementing the counters. -/
  | count
  /-- Lines 122-124: `if (targ->mode == 0) write_info_file();`, then `id++`. -/
  | info
  /-- Line 128: `usleep(1000)`. -/
  | sleep
  /-- Lines 131-132: the thread has returned. -/
  | exited
  deriving DecidableEq

/-- Local state of one `write_thread`. -/
structure WriteThread where
  targ : thread_arg_t
  id : Int
  counter : Int
  pc : WritePc
  deriving DecidableEq

/-- Outcomes of the library calls of one record rewrite (lines 95, 107). -/
structure DatOutcome where
  /-- Line 95: `fopen(filepath, "r+")` returned a stream. -/
  fopen_ok : Bool
  /-- Line 107: `fwrite` returned `DAT_SIZE`. -/
  fwrite_ok : Bool
  deriving DecidableEq

/-- One atomic step of a `write_thread`: the thread, the file-scope variables
and the effects after it. -/
def write_thread_step (doc : DatOutcome) (ioc : InfoOutcome) (t : WriteThread) (g : Globals) :
    WriteThread × Globals × List Effect :=
  match t.pc with
  | .while_test =>
    if g.g_running = true then ({ t with id := t.targ.start_id, pc := .for_test }, g, [])
    else ({ t with pc := .exited }, g, [])
  | .for_test =>
    if t.id ≤ t.targ.end_id ∧ g.g_running = true then ({ t with pc := .body }, g, [])
    else ({ t with pc := .sleep }, g, [])
  | .body =>
    if doc.fopen_ok = false then
      ({ t with id := t.id + 1, pc := .for_test }, g, [Effect.dat_open_failed t.id])
    else if doc.fwrite_ok = false then
      ({ t with counter := int_incr t.counter, id := t.id + 1, pc := .for_test }, g,
        [Effect.dat_write_failed t.id])
    else ({ t with counter := int_incr t.counter, pc := .count }, g, [Effect.dat_written t.id])
  | .count =>
    ({ t with pc := .info },
      { g with g_write_count := u64_incr g.g_write_count,
               g_files_updated := int_incr g.g_files_updated }, [])
  | .info =>
    if t.targ.mode = 0 then
      let r := write_info_file ioc g
      ({ t with id := t.id + 1, pc := .for_test }, r.2, [Effect.info_file r.1])
    else ({ t with id := t.id + 1, pc := .for_test }, g, [])
  | .sleep => ({ t with pc := .while_test }, g, [])
  | .exited => (t, g, [])

/-! ## `monitor_thread` (lines 136-160) -/

/-- Program points of `monitor_thread`. -/
inductive MonitorPc where
  /-- Lines 137-138: read the mode, `start_time = time(NULL)`. -/
  | init
  /-- Line 140: `while (g_running)`. -/
  | while_test
  /-- Lines 141-144: `sleep(1)`, read the clock, compare with the interval. -/
  | sleep
  /-- Lines 145-148: read and reset `g_files_updated` under the mutex. -/
  | evaluate
  /-- Lines 150-153: the conditional flush. -/
  | flush
  /-- Line 155: `start_time = time(NULL)`. -/
  | restart
  /-- Line 159: the thread has returned. -/
  | exited
  deriving DecidableEq

/-- Local state of `monitor_thread`. -/
structure MonitorThread where
  mode : Int
  start_time : Int
  elapsed : Int
  updated : Int
  pc : MonitorPc
  deriving DecidableEq

/-- One atomic step of `monitor_thread`; `main_mode` is the variable of `main`
the thread argument points to, `now` the value `time(NULL)` would return. -/
def monitor_thread_step (main_mode now : Int) (ioc : InfoOutcome) (m : MonitorThread)
    (g : Globals) : MonitorThread × Globals × List Effect :=
  match m.pc with
  | .init => ({ m with mode := main_mode, start_time := now, pc := .while_test }, g, [])
  | .while_test =>
    if g.g_running = true then ({ m with pc := .sleep }, g, [])
    else ({ m with pc := .exited }, g, [])
  | .sleep =>
    if now - m.start_time ≥ FLUSH_INTERVAL_SEC then
      ({ m with elapsed := now - m.start_time, pc := .evaluate }, g, [])
    else ({ m with elapsed := now - m.start_time, pc := .while_test }, g, [])
  | .evaluate =>
    ({ m with updated := g.g_files_updated, pc := .flush }, { g with g_files_updated := 0 }, [])
  | .flush =>
    if m.mode = 1 ∧ m.updated > 0 then
      let r := write_info_file ioc g
      ({ m with pc := .restart }, r.2, [Effect.info_file r.1, Effect.flushed m.elapsed m.updated])
    else ({ m with pc := .restart }, g, [])
  | .restart => ({ m with start_time := now, pc := .while_test }, g, [])
  | .exited => (m, g, [])

/-! ## `stats_thread` (lines 163-196) -/

/-- Program points of `stats_thread`. -/
inductive StatsPc where
  /-- Lines 165-167: initialise the locals. -/
  | init
  /-- Line 169: `while (g_running)`. -/
  | while_test
  /-- Lines 170-192: sleep, snapshot the counters, print the window. -/
  | sleep
  /-- Line 195: the thread has returned. -/
  | exited
  deriving DecidableEq

/-- Local state of `stats_thread`. -/
structure StatsThread where
  prev_write : Nat
  prev_info : Nat
  start_time : Int
  pc : StatsPc
  deriving DecidableEq

/-- One atomic step of `stats_thread`. -/
def stats_thread_step (now : Int) (st : StatsThread) (g : Globals) :
    StatsThread × Globals × List Effect :=
  match st.pc with
  | .init => ({ st with prev_write := 0, prev_info := 0, start_time := now, pc := .while_test }, g, [])
  | .while_test =>
    if g.g_running = true then ({ st with pc := .sleep }, g, [])
    else ({ st with pc := .exited }, g, [])
  | .sleep =>
    let cur_write := g.g_write_count
    let cur_info := g.g_info_write_count
    let dat_writes := u64_sub cur_write st.prev_write
    let info_writes := u64_sub cur_info st.prev_info
    let dat_bytes := u64_mul dat_writes DAT_SIZE
    let info_bytes := u64_mul info_writes INFO_SIZE
    let total_bytes := u64_add dat_bytes info_bytes
    ({ st with prev_write := cur_write, prev_info := cur_info, pc := .while_test }, g,
      [Effect.stats_line dat_writes dat_bytes info_writes info_bytes total_bytes])
  | .exited => (st, g, [])

/-! ## `main` (lines 198-349) -/

/-- Result of the argument checks of `main` (lines 199-223). -/
inductive ParseResult where
  /-- The checks passed with these values of `mode`, `duration`, `num_threads`. -/
  | run (mode duration num_threads : Int)
  /-- The program printed `msg` and `main` returned `status`. -/
  | fail (status : Int) (msg : Effect)
  deriving DecidableEq

/-- Lines 199-223 of `main`.  `argc` is the length of `argv`; `atoi` is the
library function, any function from strings to integers. -/
def parse_args (atoi : String → Int) (argv : List String) : ParseResult :=
  let argc := argv.length
  let mode := if argc > 1 then atoi (argv.getD 1 "") else 1
  if argc > 1 ∧ (mode ≠ 0 ∧ mode ≠ 1) then ParseResult.fail 1 Effect.usage
  else
    let duration := if argc > 2 then atoi (argv.getD 2 "") else 300
    let num_threads := if argc > 3 then atoi (argv.getD 3 "") else 100
    if argc > 3 ∧ (num_threads < 1 ∨ num_threads > NUM_FILES) then
      ParseResult.fail 1 Effect.threads_error
    else ParseResult.run mode duration num_threads

/-- Program points of `main`. -/
inductive MainPc where
  /-- Lines 199-236: argument checks, banner, signal handlers. -/
  | parse
  /-- Lines 239-242: create the data directory. -/
  | mkdir
  /-- Lines 245-264: create the record files. -/
  | create_files
  /-- Line 267: the initial `write_info_file()`. -/
  | init_info
  /-- Lines 270-278: allocate the thread array, compute the split. -/
  | alloc_threads
  /-- Lines 280-307: one iteration of the loop creating the write threads. -/
  | spawn
  /-- Line 312: create the monitor thread. -/
  | spawn_monitor
  /-- Line 316: create the statistics thread. -/
  | spawn_stats
  /-- Lines 321-323: one test of the waiting loop, and its `sleep(1)`. -/
  | wait
  /-- Line 327: `g_running = 0`. -/
  | stop
  /-- Lines 330-334: join all threads. -/
  | join
  /-- Lines 339-346: print the final summary. -/
  | report
  /-- The function `main` returned `status`; the process is gone. -/
  | exited (status : Int)
  /-- The process was terminated from outside `main`. -/
  | killed
  deriving DecidableEq

/-- Local variables of `main`. -/
structure MainThread where
  mode : Int
  duration : Int
  num_threads : Int
  files_per_thread : Int
  remainder : Int
  i : Int
  pc : MainPc
  deriving DecidableEq

/-- Outcomes of the library calls of `main`. -/
structure MainOutcome where
  /-- Line 239: `mkdir` returned 0 or failed with `EEXIST`. -/
  mkdir_ok : Bool
  /-- Line 250: index of the first record file whose `fopen` fails, if any. -/
  dat_fopen_failure : Option Nat
  /-- Line 267: the calls inside the initial `write_info_file()`. -/
  info : InfoOutcome
  /-- Line 270: `malloc` of the thread array returned a buffer. -/
  malloc_ok : Bool
  /-- Line 281: `malloc` of the thread argument returned a buffer. -/
  arg_malloc_ok : Bool
  /-- Lines 298, 312, 316: `pthread_create` returned 0. -/
  pthread_create_ok : Bool
  deriving DecidableEq

/-- All calls of `main` succeed. -/
def MainOutcome.good : MainOutcome :=
  { mkdir_ok := true, dat_fopen_failure := none, info := InfoOutcome.good, malloc_ok := true,
    arg_malloc_ok := true, pthread_create_ok := true }

/-- The byte figure under "Total write amount" (line 345), before its
conversion to megabytes: `g_write_count * DAT_SIZE + g_info_write_count *
INFO_SIZE` on `uint64_t`. -/
def total_write_bytes (write_count info_write_count : Nat) : Nat :=
  u64_add (u64_mul write_count DAT_SIZE) (u64_mul info_write_count INFO_SIZE)

/-- The byte figure under "Total DAT writes" (line 341). -/
def dat_write_bytes (write_count : Nat) : Nat := u64_mul write_count DAT_SIZE

/-- The byte figure under "Total INFO writes" (line 343). -/
def info_write_bytes (info_write_count : Nat) : Nat := u64_mul info_write_count INFO_SIZE

/-- The final summary (lines 339-346). -/
def final_results (g : Globals) : Effect :=
  Effect.results g.g_write_count g.g_info_write_count (dat_write_bytes g.g_write_count)
    (info_write_bytes g.g_info_write_count)
    (total_write_bytes g.g_write_count g.g_info_write_count)

/-! ## The whole process -/

/-- The process: file-scope variables, the wall clock read by `time(NULL)`,
the threads, and the effects so far. -/
structure Sys where
  g : Globals
  clock : Int
  main : MainThread
  threads : List WriteThread
  monitor : Option MonitorThread
  stats : Option StatsThread
  log : List Effect
  deriving DecidableEq

/-- The process at its start, with the wall clock at `clock0`. -/
def Sys.initial (clock0 : Int) : Sys :=
  { g := Globals.initial, clock := clock0,
    main := { mode := 1, duration := 300, num_threads := 100, files_per_thread := 0,
              remainder := 0, i := 0, pc := MainPc.parse },
    threads := [], monitor := none, stats := none, log := [] }

/-- Whether the write thread has returned. -/
def WriteThread.done (t : WriteThread) : Bool := decide (t.pc = WritePc.exited)

/-- Whether every thread that was created has returned, so that the joins of
lines 330-334 return. -/
def Sys.all_joined (s : Sys) : Bool :=
  s.threads.all WriteThread.done &&
  (match s.monitor with
   | none => true
   | some m => decide (m.pc = MonitorPc.exited)) &&
  (match s.stats with
   | none => true
   | some st => decide (st.pc = StatsPc.exited))

/-- One atomic step of `main`. -/
def main_step (atoi : String → Int) (argv : List String) (oc : MainOutcome) (s : Sys) : Sys :=
  match s.main.pc with
  | .parse =>
    match parse_args atoi argv with
    | .fail status msg =>
      { s with main := { s.main with pc := .exited status }, log := s.log ++ [msg] }
    | .run mode duration num_threads =>
      { s with main := { s.main with mode := mode, duration := duration,
                                     num_threads := num_threads, pc := .mkdir } }
  | .mkdir =>
    if oc.mkdir_ok = false then { s with main := { s.main with pc := .exited 1 } }
    else { s with main := { s.main with pc := .create_files }, log := s.log ++ [Effect.mkdir_data] }
  | .create_files =>
    match oc.dat_fopen_failure with
    | some k =>
      if (k : Int) < NUM_FILES then
        { s with main := { s.main with pc := .exited 1 }, log := s.log ++ [Effect.dat_created k] }
      else
        { s with main := { s.main with pc := .init_info },
                 log := s.log ++ [Effect.dat_created NUM_FILES] }
    | none =>
      { s with main := { s.main with pc := .init_info },
               log := s.log ++ [Effect.dat_created NUM_FILES] }
  | .init_info =>
    let r := write_info_file oc.info s.g
    { s with g := r.2, main := { s.main with pc := .alloc_threads },
             log := s.log ++ [Effect.info_file r.1] }
  | .alloc_threads =>
    if oc.malloc_ok = false then { s with main := { s.main with pc := .exited 1 } }
    else
      { s with main := { s.main with
          files_per_thread := Int.tdiv NUM_FILES s.main.num_threads,
          remainder := Int.tmod NUM_FILES s.main.num_threads,
          i := 0, pc := .spawn } }
  | .spawn =>
    if s.main.i < s.main.num_threads then
      if oc.arg_malloc_ok = false then { s with main := { s.main with pc := .killed } }
      else if oc.pthread_create_ok = false then
        { s with main := { s.main with pc := .exited 1 } }
      else
        let arg : thread_arg_t :=
          { start_id := arg_start_id s.main.files_per_thread s.main.remainder s.main.i,
            end_id := arg_end_id s.main.files_per_thread s.main.remainder s.main.i,
            mode := s.main.mode }
        { s with main := { s.main with i := s.main.i + 1 },
                 threads := s.threads ++ [{ targ := arg, id := 0, counter := 0,
                                            pc := WritePc.while_test }],
                 log := s.log ++ [Effect.thread_created] }
    else { s with main := { s.main with pc := .spawn_monitor } }
  | .spawn_monitor =>
    if oc.pthread_create_ok = false then { s with main := { s.main with pc := .spawn_stats } }
    else
      { s with main := { s.main with pc := .spawn_stats },
               monitor := some { mode := 0, start_time := 0, elapsed := 0, updated := 0,
                                 pc := MonitorPc.init },
               log := s.log ++ [Effect.thread_created] }
  | .spawn_stats =>
    if oc.pthread_create_ok = false then { s with main := { s.main with i := 0, pc := .wait } }
    else
      { s with main := { s.main with i := 0, pc := .wait },
               stats := some { prev_write := 0, prev_info := 0, start_time := 0,
                               pc := StatsPc.init },
               log := s.log ++ [Effect.thread_created] }
  | .wait =>
    if s.main.i < s.main.duration ∧ s.g.g_running = true then
      { s with main := { s.main with i := s.main.i + 1 } }
    else { s with main := { s.main with pc := .stop } }
  | .stop => { s with g := { s.g with g_running := false }, main := { s.main with pc := .join } }
  | .join =>
    if s.all_joined = true then { s with main := { s.main with pc := .report } } else s
  | .report =>
    { s with main := { s.main with pc := .exited 0 }, log := s.log ++ [final_results s.g] }
  | .exited _ => s
  | .killed => s

/-- What the scheduler and the environment can do next. -/
inductive Event where
  /-- The thread of `main` performs its next step. -/
  | main (oc : MainOutcome)
  /-- The write thread created `k`-th performs its next step. -/
  | write (k : Nat) (doc : DatOutcome) (ioc : InfoOutcome)
  /-- The monitor thread performs its next step. -/
  | monitor (ioc : InfoOutcome)
  /-- The statistics thread performs its next step. -/
  | stats
  /-- Delivery of `SIGINT` or `SIGTERM`. -/
  | signal
  /-- The wall clock changes by `d` seconds. -/
  | advance (d : Int)
  deriving DecidableEq

/-- Whether the process still exists. -/
def Sys.alive (s : Sys) : Bool :=
  match s.main.pc with
  | .exited _ => false
  | .killed => false
  | _ => true

/-- One step of the process.  Once `main` has returned nothing happens any
more.  A signal before the handlers are installed (line 235) terminates the
process; afterwards `signal_handler` clears `g_running`. -/
def step (atoi : String → Int) (argv : List String) (s : Sys) (e : Event) : Sys :=
  if s.alive = false then s
  else
    match e with
    | .main oc => main_step atoi argv oc s
    | .write k doc ioc =>
      match s.threads[k]? with
      | none => s
      | some t =>
        let r := write_thread_step doc ioc t s.g
        { s with g := r.2.1, threads := s.threads.set k r.1, log := s.log ++ r.2.2 }
    | .monitor ioc =>
      match s.monitor with
      | none => s
      | some m =>
        let r := monitor_thread_step s.main.mode s.clock ioc m s.g
        { s with g := r.2.1, monitor := some r.1, log := s.log ++ r.2.2 }
    | .stats =>
      match s.stats with
      | none => s
      | some st =>
        let r := stats_thread_step s.clock st s.g
        { s with g := r.2.1, stats := some r.1, log := s.log ++ r.2.2 }
    | .signal =>
      if s.main.pc = MainPc.parse then { s with main := { s.main with pc := .killed } }
      else { s with g := { s.g with g_running := false } }
    | .advance d => { s with clock := s.clock + d }

/-- The process after the events `evs`, in order. -/
def exec (atoi : String → Int) (argv : List String) (s : Sys) (evs : List Event) : Sys :=
  evs.foldl (step atoi argv) s

/-! ## Quantities read off a state or a list of effects -/

/-- Number of calls of `write_info_file` among the effects. -/
def info_calls (l : List Effect) : Nat :=
  l.countP (fun e => match e with
    | Effect.info_file _ => true
    | _ => false)

/-- Number of calls of `write_info_file` that returned 0 among the effects:
the blob persists that were made and counted. -/
def info_ok (l : List Effect) : Nat :=
  l.countP (fun e => decide (e = Effect.info_file 0))

/-- Number of record rewrites that succeeded among the effects. -/
def dat_writes (l : List Effect) : Nat :=
  l.countP (fun e => match e with
    | Effect.dat_written _ => true
    | _ => false)

/-- Number of flushes reported by the monitor thread (line 152) among the
effects. -/
def flushes (l : List Effect) : Nat :=
  l.countP (fun e => match e with
    | Effect.flushed _ _ => true
    | _ => false)

/-- Number of write threads standing at program point `pc`. -/
def count_pc (pc : WritePc) (ts : List WriteThread) : Nat :=
  ts.countP (fun t => decide (t.pc = pc))

/-- The next step of the process is the flush controller's evaluation: the
monitor thread stands at the critical section of lines 145-148. -/
def is_evaluation (s : Sys) (e : Event) : Bool :=
  s.alive &&
    (match e with
     | Event.monitor _ =>
       (match s.monitor with
        | some m => decide (m.pc = MonitorPc.evaluate)
        | none => false)
     | _ => false)

/-- The bound `⌈duration / FLUSH_INTERVAL_SEC⌉`. -/
def ceil_intervals (duration : Int) : Int :=
  (duration + FLUSH_INTERVAL_SEC - 1) / FLUSH_INTERVAL_SEC

/-- Program points of `main` up to and including the initial
`write_info_file()` of line 267. -/
def MainPc.before_info : MainPc → Bool
  | .parse => true
  | .mkdir => true
  | .create_files => true
  | .init_info => true
  | _ => false

/-- Program points of `main` before the loop that creates the write threads. -/
def MainPc.before_spawn : MainPc → Bool
  | .parse => true
  | .mkdir => true
  | .create_files => true
  | .init_info => true
  | .alloc_threads => true
  | _ => false

/-- Program points of `main` up to and including the creation of the monitor
thread (line 312). -/
def MainPc.before_monitor : MainPc → Bool
  | .parse => true
  | .mkdir => true
  | .create_files => true
  | .init_info => true
  | .alloc_threads => true
  | .spawn => true
  | .spawn_monitor => true
  | _ => false

/-- The clock value the monitor thread read last. -/
def mon_now (m : MonitorThread) : Int :=
  match m.pc with
  | .evaluate => m.start_time + m.elapsed
  | .flush => m.start_time + m.elapsed
  | .restart => m.start_time + m.elapsed
  | _ => m.start_time

/-- Whether the monitor thread has found a full interval elapsed and has not
yet passed the flush of lines 150-153 (1) or not (0). -/
def mon_due (m : MonitorThread) : Int :=
  match m.pc with
  | .evaluate => 1
  | .flush => 1
  | _ => 0

/-! ## Invariants of the runs -/

/-- States of a process whose argument check failed with `st` and `msg`. -/
def Rejected (st : Int) (msg : Effect) (s : Sys) : Prop :=
  s.threads = [] ∧ s.monitor = none ∧ s.stats = none ∧ s.g = Globals.initial ∧
  ((s.main.pc = MainPc.parse ∧ s.log = []) ∨
   (s.main.pc = MainPc.exited st ∧ s.log = [msg]) ∨
   (s.main.pc = MainPc.killed ∧ s.log = []))

/-- The values of `mode` and `num_threads` are the ones the argument checks let
through. -/
def ValidConfig (s : Sys) : Prop :=
  (s.main.mode = 0 ∨ s.main.mode = 1) ∧ 1 ≤ s.main.num_threads ∧ s.main.num_threads ≤ NUM_FILES

/-- Facts about the threads that hold in every state of the process: nothing
is written and no thread exists before the initial persist, the monitor does
not exist before line 312, and every thread runs with the mode of `main`. -/
def Shape (s : Sys) : Prop :=
  (s.main.pc.before_info = true →
    s.threads = [] ∧ info_calls s.log = 0 ∧ dat_writes s.log = 0) ∧
  (s.main.pc.before_monitor = true → s.monitor = none) ∧
  (∀ t ∈ s.threads, t.targ.mode = s.main.mode) ∧
  (∀ m, s.monitor = some m → m.pc ≠ MonitorPc.init → m.mode = s.main.mode)

/-- The two counters are the numbers of counted record writes and of
successful persists, modulo 2^64. -/
def Counted (s : Sys) : Prop :=
  count_pc WritePc.count s.threads ≤ dat_writes s.log ∧
  s.g.g_write_count = (dat_writes s.log - count_pc WritePc.count s.threads) % UINT64_MOD ∧
  s.g.g_info_write_count = info_ok s.log % UINT64_MOD

/-- Under the eager strategy every record rewrite is counted or about to be,
and every counted one has had its call of `write_info_file` or is about to. -/
def Eager (s : Sys) : Prop :=
  (∀ t ∈ s.threads, t.targ.mode = 0) →
    dat_writes s.log ≤
      count_pc WritePc.count s.threads + count_pc WritePc.info s.threads + info_calls s.log

/-- Under the batched strategy, every call of `write_info_file` after the
first one is paid for by `FLUSH_INTERVAL_SEC` seconds of the clock since
`clock0`. -/
def Timed (clock0 : Int) (s : Sys) : Prop :=
  clock0 ≤ s.clock ∧
  (s.main.mode = 1 →
    match s.monitor with
    | none => info_calls s.log ≤ 1
    | some m =>
      if m.pc = MonitorPc.init then info_calls s.log ≤ 1
      else mon_now m ≤ s.clock ∧
        FLUSH_INTERVAL_SEC * ((info_calls s.log : Int) - 1 + mon_due m) ≤ mon_now m - clock0)

/-- In either mode, every flush reported by the monitor thread is paid for by
`FLUSH_INTERVAL_SEC` seconds of the clock since `clock0`. -/
def Paced (clock0 : Int) (s : Sys) : Prop :=
  clock0 ≤ s.clock ∧
  match s.monitor with
  | none => flushes s.log = 0
  | some m =>
    if m.pc = MonitorPc.init then flushes s.log = 0
    else mon_now m ≤ s.clock ∧
      FLUSH_INTERVAL_SEC * ((flushes s.log : Int) + mon_due m) ≤ mon_now m - clock0

/-- The write threads created so far hold the ranges of the partition, in the
order of their creation. -/
def Assigned (s : Sys) : Prop :=
  (s.main.pc.before_spawn = true → s.threads = []) ∧
  (s.main.pc = MainPc.spawn →
    s.main.i = s.threads.length ∧
    s.main.files_per_thread = files_per_thread NUM_FILES s.main.num_threads ∧
    s.main.remainder = remainder NUM_FILES s.main.num_threads) ∧
  (∀ (k : Nat) (t : WriteThread), s.threads[k]? = some t →
    t.targ.start_id = start_id NUM_FILES s.main.num_threads k ∧
    t.targ.end_id = end_id NUM_FILES s.main.num_threads k ∧
    (k : Int) < s.main.num_threads)

/-! ## Concrete inputs and runs -/

/-- Both calls of a record rewrite succeed. -/
def DatOutcome.good : DatOutcome := { fopen_ok := true, fwrite_ok := true }

/-- The `fopen` of the record file fails. -/
def DatOutcome.open_failed : DatOutcome := { fopen_ok := false, fwrite_ok := true }

/-- Everything succeeds up to `fsync`, which fails. -/
def InfoOutcome.sync_failed : InfoOutcome :=
  { malloc_ok := true, fopen_ok := true, fwrite_ok := true, fflush_ok := true, fsync_ok := false }

/-- The `fopen` of the blob file fails. -/
def InfoOutcome.open_failed : InfoOutcome :=
  { malloc_ok := true, fopen_ok := false, fwrite_ok := true, fflush_ok := true, fsync_ok := true }

/-- An eager write thread about to rewrite record 3 of its range `[0, 9]`. -/
def sample_thread : WriteThread :=
  { targ := { start_id := 0, end_id := 9, mode := 0 }, id := 3, counter := 0, pc := WritePc.body }

/-- A monitor thread in mode 1 that has found 30 seconds elapsed. -/
def sample_monitor : MonitorThread :=
  { mode := 1, start_time := 0, elapsed := 30, updated := 0, pc := MonitorPc.evaluate }

/-- File-scope variables with three records touched in the current window. -/
def sample_globals : Globals :=
  { g_running := true, g_files_updated := 3, g_write_count := 3, g_info_write_count := 1 }

/-- File-scope variables after the evaluation has reset `g_files_updated`. -/
def sample_globals_reset : Globals :=
  { g_running := true, g_files_updated := 0, g_write_count := 3, g_info_write_count := 1 }

/-- Value of a string of decimal digits, which is what `atoi` returns for such
a string; used to run the model on concrete argument lists. -/
def atoi_digits (s : String) : Int :=
  Int.ofNat (s.data.foldl (fun acc c => acc * 10 + (c.toNat - 48)) 0)

/-- A run with two eager threads in which all calls succeed: `main` up to the
creation of both write threads, then each thread rewrites and counts its first
record. -/
def eager_trace : List Event :=
  List.replicate 7 (Event.main MainOutcome.good) ++
  List.replicate 4 (Event.write 0 DatOutcome.good InfoOutcome.good) ++
  List.replicate 4 (Event.write 1 DatOutcome.good InfoOutcome.good)

/-- One second of a run: the monitor tests `g_running` and goes to sleep,
`main` sleeps one second, the clock advances by one, the monitor wakes up and
reads the clock. -/
def one_second : List Event :=
  [Event.monitor InfoOutcome.good, Event.main MainOutcome.good, Event.advance 1,
   Event.monitor InfoOutcome.good]

/-- A complete run of `emmc_test 1 30 1` in which all calls succeed and the
clock advances by one per second slept. -/
def batched_trace : List Event :=
  List.replicate 9 (Event.main MainOutcome.good) ++
  [Event.monitor InfoOutcome.good, Event.stats] ++
  List.replicate 5 (Event.write 0 DatOutcome.good InfoOutcome.good) ++
  (List.replicate 30 one_second).flatten ++
  List.replicate 3 (Event.monitor InfoOutcome.good) ++
  List.replicate 2 (Event.main MainOutcome.good) ++
  List.replicate 3 (Event.write 0 DatOutcome.good InfoOutcome.good) ++
  [Event.monitor InfoOutcome.good, Event.stats] ++
  List.replicate 2 (Event.main MainOutcome.good)

/-- One second of a run in which the wall clock is set forward by half a
minute: as `one_second`, with the larger step of the clock. -/
def one_second_clock_set : List Event :=
  [Event.monitor InfoOutcome.good, Event.main MainOutcome.good, Event.advance 30,
   Event.monitor InfoOutcome.good]

/-- A complete run of `emmc_test 1 2 1` in which all calls succeed and the
wall clock is set forward by 30 seconds during each of the two seconds slept;
the write thread rewrites one record before each evaluation. -/
def clock_set_trace : List Event :=
  List.replicate 9 (Event.main MainOutcome.good) ++
  [Event.monitor InfoOutcome.good, Event.stats] ++
  List.replicate 5 (Event.write 0 DatOutcome.good InfoOutcome.good) ++
  one_second_clock_set ++
  List.replicate 3 (Event.monitor InfoOutcome.good) ++
  List.replicate 4 (Event.write 0 DatOutcome.good InfoOutcome.good) ++
  one_second_clock_set ++
  List.replicate 3 (Event.monitor InfoOutcome.good) ++
  List.replicate 2 (Event.main MainOutcome.good) ++
  List.replicate 3 (Event.write 0 DatOutcome.good InfoOutcome.good) ++
  [Event.monitor InfoOutcome.good, Event.stats] ++
  List.replicate 2 (Event.main MainOutcome.good)

/-- The process of `emmc_test 0 300 2` when its first write thread has
rewritten its first record and stands before the critical section. -/
def counting_state : Sys :=
  exec atoi_digits ["emmc_test", "0", "300", "2"] (Sys.initial 0)
    (List.replicate 7 (Event.main MainOutcome.good) ++
     List.replicate 3 (Event.write 0 DatOutcome.good InfoOutcome.good))

/-- The process of `emmc_test 1 30 1` in the run `batched_trace` when the
monitor thread has found 30 seconds elapsed and stands before its critical
section, one record having been touched. -/
def evaluating_state : Sys :=
  exec atoi_digits ["emmc_test", "1", "30", "1"] (Sys.initial 0) (batched_trace.take 136)

/-- The process of `emmc_test 1 30 1` at the end of `batched_trace`, before
`main` prints the final summary. -/
def reporting_state : Sys :=
  exec atoi_digits ["emmc_test", "1", "30", "1"] (Sys.initial 0) batched_trace.dropLast

/-! ## Lemmas -/

set_option maxRecDepth 100000

/-! ### Arithmetic facts about the partition -/

theorem div_facts (N W : Int) (hW : 1 ≤ W) (hN : W ≤ N) :
    1 ≤ files_per_thread N W ∧ 0 ≤ remainder N W ∧ remainder N W < W ∧
    W * files_per_thread N W + remainder N W = N := by
  have hN0 : 0 ≤ N := by omega
  have hW0 : 0 ≤ W := by omega
  have hq : files_per_thread N W = N / W := Int.tdiv_eq_ediv hN0 hW0
  have hr : remainder N W = N % W := by
    have h1 := Int.tmod_add_tdiv N W
    have h2 := Int.emod_add_ediv N W
    unfold remainder
    unfold files_per_thread at hq
    rw [hq] at h1
    omega
  rw [hq, hr]
  have h1 : 0 ≤ N % W := Int.emod_nonneg N (by omega)
  have h2 : N % W < W := Int.emod_lt_of_pos N (by omega)
  have h3 := Int.emod_add_ediv N W
  refine ⟨?_, h1, h2, by omega⟩
  by_contra hlt
  have hq0 : N / W ≤ 0 := by omega
  have : W * (N / W) ≤ 0 := Int.mul_nonpos_of_nonneg_of_nonpos hW0 hq0
  omega

theorem end_succ (N W i : Int) :
    end_id N W i + 1 = start_id N W (i + 1) := by
  unfold end_id start_id arg_end_id arg_start_id
  simp only []
  split <;> split <;> omega

theorem range_size_eq (N W i : Int) :
    range_size N W i =
      if i < remainder N W then files_per_thread N W + 1 else files_per_thread N W := by
  unfold range_size end_id start_id arg_end_id arg_start_id
  simp only []
  have h : (i + 1) * files_per_thread N W = i * files_per_thread N W + files_per_thread N W := by
    ring
  split <;> omega

theorem start_step (N W i : Int) (hq : 0 ≤ files_per_thread N W) :
    start_id N W i ≤ start_id N W (i + 1) := by
  have h1 := end_succ N W i
  have h2 := range_size_eq N W i
  unfold range_size at h2
  split at h2 <;> omega

theorem start_mono_nat (N W i : Int) (hq : 0 ≤ files_per_thread N W) (d : Nat) :
    start_id N W i ≤ start_id N W (i + d) := by
  induction d with
  | zero => simp
  | succ d ih =>
    have h := start_step N W (i + d) hq
    have e : i + ((d + 1 : Nat) : Int) = i + (d : Int) + 1 := by push_cast; ring
    rw [e]
    omega

theorem start_mono (N W i j : Int) (hq : 0 ≤ files_per_thread N W) (hij : i ≤ j) :
    start_id N W i ≤ start_id N W j := by
  have h := start_mono_nat N W i hq (j - i).toNat
  have e : i + ((j - i).toNat : Int) = j := by
    rw [Int.toNat_of_nonneg (by omega)]; ring
  rw [e] at h
  exact h

theorem start_zero (N W : Int) (hr : 0 ≤ remainder N W) : start_id N W 0 = 0 := by
  unfold start_id arg_start_id
  simp only []
  split <;> omega

theorem start_last (N W : Int) (hr : remainder N W < W)
    (hd : W * files_per_thread N W + remainder N W = N) : start_id N W W = N := by
  unfold start_id arg_start_id
  simp only []
  split <;> omega

theorem cover_below (N W : Int) (k : Nat) :
    ∀ id : Int, start_id N W 0 ≤ id → id < start_id N W k →
      ∃ i : Int, 0 ≤ i ∧ i < k ∧ start_id N W i ≤ id ∧ id ≤ end_id N W i := by
  induction k with
  | zero => intro id h0 h1; simp at h1; omega
  | succ k ih =>
    intro id h0 h1
    by_cases h : id < start_id N W k
    · obtain ⟨i, hi0, hik, hs, he⟩ := ih id h0 h
      exact ⟨i, hi0, by push_cast; omega, hs, he⟩
    · have hs := end_succ N W k
      have e : ((k + 1 : Nat) : Int) = (k : Int) + 1 := by push_cast; ring
      rw [e] at h1
      exact ⟨k, by omega, by push_cast; omega, by omega, by omega⟩

/-! ### The counters across one step of each thread -/

theorem write_info_file_mono (oc : InfoOutcome) (g : Globals)
    (hi : g.g_info_write_count + 1 < UINT64_MOD) :
    g.g_info_write_count ≤ (write_info_file oc g).2.g_info_write_count ∧
    (write_info_file oc g).2.g_write_count = g.g_write_count ∧
    (write_info_file oc g).2.g_files_updated = g.g_files_updated := by
  unfold write_info_file u64_incr
  unfold UINT64_MOD at *
  split
  · simp
  · split
    · simp
    · split
      · simp
      · simp only [and_self, and_true]
        omega

theorem write_thread_step_mono (doc : DatOutcome) (ioc : InfoOutcome) (t : WriteThread)
    (g : Globals) (hw : g.g_write_count + 1 < UINT64_MOD)
    (hi : g.g_info_write_count + 1 < UINT64_MOD) (hu : g.g_files_updated < INT_MAX) :
    g.g_write_count ≤ (write_thread_step doc ioc t g).2.1.g_write_count ∧
    g.g_info_write_count ≤ (write_thread_step doc ioc t g).2.1.g_info_write_count ∧
    ((write_thread_step doc ioc t g).2.1.g_files_updated = g.g_files_updated ∨
     (write_thread_step doc ioc t g).2.1.g_files_updated = g.g_files_updated + 1) := by
  have hinfo := write_info_file_mono ioc g hi
  unfold write_thread_step
  split
  · split <;> simp
  · split <;> simp
  · split
    · simp
    · split <;> simp
  · simp only [u64_incr, int_incr, le_refl, true_and]
    unfold UINT64_MOD at hw
    unfold UINT64_MOD
    constructor
    · omega
    · right
      rw [if_neg (by omega)]
  · split
    · simp only []
      refine ⟨by omega, hinfo.1, Or.inl hinfo.2.2⟩
    · simp
  · simp
  · simp

theorem monitor_thread_step_mono (main_mode now : Int) (ioc : InfoOutcome) (m : MonitorThread)
    (g : Globals) (hi : g.g_info_write_count + 1 < UINT64_MOD) :
    g.g_write_count ≤ (monitor_thread_step main_mode now ioc m g).2.1.g_write_count ∧
    g.g_info_write_count ≤ (monitor_thread_step main_mode now ioc m g).2.1.g_info_write_count ∧
    (m.pc = MonitorPc.evaluate →
      (monitor_thread_step main_mode now ioc m g).2.1.g_files_updated = 0) ∧
    (m.pc ≠ MonitorPc.evaluate →
      (monitor_thread_step main_mode now ioc m g).2.1.g_files_updated = g.g_files_updated) := by
  have hinfo := write_info_file_mono ioc g hi
  unfold monitor_thread_step
  split
  · simp_all
  · split <;> simp_all
  · split <;> simp_all
  · simp_all
  · split
    · simp only []
      refine ⟨by omega, hinfo.1, by simp_all, fun _ => hinfo.2.2⟩
    · simp_all
  · simp_all
  · simp_all

theorem stats_thread_step_globals (now : Int) (st : StatsThread) (g : Globals) :
    (stats_thread_step now st g).2.1 = g := by
  unfold stats_thread_step
  split
  · rfl
  · split <;> rfl
  · rfl
  · rfl

theorem main_step_mono (atoi : String → Int) (argv : List String) (oc : MainOutcome) (s : Sys)
    (hi : s.g.g_info_write_count + 1 < UINT64_MOD) :
    s.g.g_write_count ≤ (main_step atoi argv oc s).g.g_write_count ∧
    s.g.g_info_write_count ≤ (main_step atoi argv oc s).g.g_info_write_count ∧
    (main_step atoi argv oc s).g.g_files_updated = s.g.g_files_updated := by
  have hinfo := write_info_file_mono oc.info s.g hi
  unfold main_step
  split
  · split <;> simp
  · split <;> simp
  · split
    · split <;> simp
    · simp
  · simp only []
    refine ⟨by omega, hinfo.1, hinfo.2.2⟩
  · split <;> simp
  · split
    · split
      · simp
      · split <;> simp
    · simp
  · split <;> simp
  · split <;> simp
  · split <;> simp
  · simp
  · split <;> simp
  · simp
  · simp
  · simp

/-! ### The step of the process, event by event -/

theorem step_dead (atoi : String → Int) (argv : List String) (s : Sys) (e : Event)
    (h : s.alive = false) : step atoi argv s e = s := by
  unfold step
  rw [if_pos h]

theorem step_main (atoi : String → Int) (argv : List String) (s : Sys) (oc : MainOutcome)
    (h : s.alive = true) : step atoi argv s (Event.main oc) = main_step atoi argv oc s := by
  unfold step
  rw [if_neg (by simp [h])]

theorem step_write_none (atoi : String → Int) (argv : List String) (s : Sys) (k : Nat)
    (doc : DatOutcome) (ioc : InfoOutcome) (hk : s.threads[k]? = none) :
    step atoi argv s (Event.write k doc ioc) = s := by
  unfold step
  split
  · rfl
  · simp only [hk]

theorem step_write_some (atoi : String → Int) (argv : List String) (s : Sys) (k : Nat)
    (doc : DatOutcome) (ioc : InfoOutcome) (t : WriteThread) (h : s.alive = true)
    (hk : s.threads[k]? = some t) :
    step atoi argv s (Event.write k doc ioc) =
      { s with g := (write_thread_step doc ioc t s.g).2.1,
               threads := s.threads.set k (write_thread_step doc ioc t s.g).1,
               log := s.log ++ (write_thread_step doc ioc t s.g).2.2 } := by
  unfold step
  rw [if_neg (by simp [h])]
  simp only [hk]

theorem step_monitor_none (atoi : String → Int) (argv : List String) (s : Sys)
    (ioc : InfoOutcome) (hm : s.monitor = none) :
    step atoi argv s (Event.monitor ioc) = s := by
  unfold step
  split
  · rfl
  · simp only [hm]

theorem step_monitor_some (atoi : String → Int) (argv : List String) (s : Sys)
    (ioc : InfoOutcome) (m : MonitorThread) (h : s.alive = true) (hm : s.monitor = some m) :
    step atoi argv s (Event.monitor ioc) =
      { s with g := (monitor_thread_step s.main.mode s.clock ioc m s.g).2.1,
               monitor := some (monitor_thread_step s.main.mode s.clock ioc m s.g).1,
               log := s.log ++ (monitor_thread_step s.main.mode s.clock ioc m s.g).2.2 } := by
  unfold step
  rw [if_neg (by simp [h])]
  simp only [hm]

theorem step_stats_none (atoi : String → Int) (argv : List String) (s : Sys)
    (hs : s.stats = none) : step atoi argv s Event.stats = s := by
  unfold step
  split
  · rfl
  · simp only [hs]

theorem step_stats_some (atoi : String → Int) (argv : List String) (s : Sys)
    (st : StatsThread) (h : s.alive = true) (hs : s.stats = some st) :
    step atoi argv s Event.stats =
      { s with g := (stats_thread_step s.clock st s.g).2.1,
               stats := some (stats_thread_step s.clock st s.g).1,
               log := s.log ++ (stats_thread_step s.clock st s.g).2.2 } := by
  unfold step
  rw [if_neg (by simp [h])]
  simp only [hs]

theorem step_signal (atoi : String → Int) (argv : List String) (s : Sys) (h : s.alive = true) :
    step atoi argv s Event.signal =
      if s.main.pc = MainPc.parse then { s with main := { s.main with pc := MainPc.killed } }
      else { s with g := { s.g with g_running := false } } := by
  unfold step
  rw [if_neg (by simp [h])]

theorem step_advance (atoi : String → Int) (argv : List String) (s : Sys) (d : Int)
    (h : s.alive = true) :
    step atoi argv s (Event.advance d) = { s with clock := s.clock + d } := by
  unfold step
  rw [if_neg (by simp [h])]

/-! ### Induction over a run -/

theorem exec_invariant (atoi : String → Int) (argv : List String) (P : Sys → Prop)
    (Ok : Event → Prop) (hstep : ∀ s e, Ok e → P s → P (step atoi argv s e)) :
    ∀ (evs : List Event) (s : Sys), (∀ e ∈ evs, Ok e) → P s → P (exec atoi argv s evs) := by
  intro evs
  induction evs with
  | nil => intro s _ h; exact h
  | cons e evs ih =>
    intro s hok h
    have h1 : P (step atoi argv s e) := hstep s e (hok e (List.mem_cons_self _ _)) h
    exact ih (step atoi argv s e) (fun e2 he2 => hok e2 (List.mem_cons_of_mem _ he2)) h1

/-! ### The argument checks of `main` -/

theorem parse_args_run (atoi : String → Int) (argv : List String) (m d n : Int)
    (h : parse_args atoi argv = ParseResult.run m d n) :
    (m = 0 ∨ m = 1) ∧ 1 ≤ n ∧ n ≤ NUM_FILES ∧
    m = (if argv.length > 1 then atoi (argv.getD 1 "") else 1) ∧
    d = (if argv.length > 2 then atoi (argv.getD 2 "") else 300) ∧
    n = (if argv.length > 3 then atoi (argv.getD 3 "") else 100) := by
  unfold parse_args at h
  simp only [] at h
  by_cases h1 : argv.length > 1 ∧
      ((if argv.length > 1 then atoi (argv.getD 1 "") else 1) ≠ 0 ∧
       (if argv.length > 1 then atoi (argv.getD 1 "") else 1) ≠ 1)
  · rw [if_pos h1] at h
    cases h
  · rw [if_neg h1] at h
    by_cases h2 : argv.length > 3 ∧
        ((if argv.length > 3 then atoi (argv.getD 3 "") else 100) < 1 ∨
         (if argv.length > 3 then atoi (argv.getD 3 "") else 100) > NUM_FILES)
    · rw [if_pos h2] at h
      cases h
    · rw [if_neg h2] at h
      injection h with hm hd hn
      subst hm hd hn
      refine ⟨?_, ?_, ?_, rfl, rfl, rfl⟩
      · by_cases hc : argv.length > 1
        · rw [if_pos hc] at h1 ⊢
          by_contra hcon
          exact h1 ⟨hc, fun h0 => hcon (Or.inl h0), fun h0 => hcon (Or.inr h0)⟩
        · rw [if_neg hc]
          right; rfl
      · by_cases hc : argv.length > 3
        · rw [if_pos hc] at h2 ⊢
          by_contra hcon
          exact h2 ⟨hc, Or.inl (by omega)⟩
        · rw [if_neg hc]
          decide
      · by_cases hc : argv.length > 3
        · rw [if_pos hc] at h2 ⊢
          by_contra hcon
          exact h2 ⟨hc, Or.inr (by omega)⟩
        · rw [if_neg hc]
          decide

theorem parse_args_fail (atoi : String → Int) (argv : List String)
    (h : (argv.length > 1 ∧ atoi (argv.getD 1 "") ≠ 0 ∧ atoi (argv.getD 1 "") ≠ 1) ∨
         (argv.length > 3 ∧ (atoi (argv.getD 3 "") < 1 ∨ atoi (argv.getD 3 "") > NUM_FILES))) :
    ∃ msg, parse_args atoi argv = ParseResult.fail 1 msg := by
  unfold parse_args
  simp only []
  by_cases h1 : argv.length > 1 ∧
      ((if argv.length > 1 then atoi (argv.getD 1 "") else 1) ≠ 0 ∧
       (if argv.length > 1 then atoi (argv.getD 1 "") else 1) ≠ 1)
  · rw [if_pos h1]
    exact ⟨_, rfl⟩
  · rw [if_neg h1]
    by_cases h2 : argv.length > 3 ∧
        ((if argv.length > 3 then atoi (argv.getD 3 "") else 100) < 1 ∨
         (if argv.length > 3 then atoi (argv.getD 3 "") else 100) > NUM_FILES)
    · rw [if_pos h2]
      exact ⟨_, rfl⟩
    · exfalso
      rcases h with ⟨ha, hb, hc⟩ | ⟨ha, hb⟩
      · apply h1
        rw [if_pos ha]
        exact ⟨ha, hb, hc⟩
      · apply h2
        rw [if_pos ha]
        exact ⟨ha, hb⟩

theorem rejected_step (atoi : String → Int) (argv : List String) (st : Int) (msg : Effect)
    (h : parse_args atoi argv = ParseResult.fail st msg) (s : Sys) (e : Event)
    (hs : Rejected st msg s) : Rejected st msg (step atoi argv s e) := by
  obtain ⟨ht, hm, hst, hg, hpc⟩ := hs
  by_cases hal : s.alive = true
  swap
  · rw [step_dead atoi argv s e (by simpa using hal)]
    exact ⟨ht, hm, hst, hg, hpc⟩
  have hparse : s.main.pc = MainPc.parse ∧ s.log = [] := by
    rcases hpc with h1 | h1 | h1
    · exact h1
    · simp [Sys.alive, h1.1] at hal
    · simp [Sys.alive, h1.1] at hal
  cases e with
  | main oc =>
    rw [step_main atoi argv s oc hal]
    unfold main_step
    simp only [hparse.1, h]
    refine ⟨ht, hm, hst, hg, Or.inr (Or.inl ⟨rfl, ?_⟩)⟩
    simp [hparse.2]
  | write k doc ioc =>
    rw [step_write_none atoi argv s k doc ioc (by simp [ht])]
    exact ⟨ht, hm, hst, hg, hpc⟩
  | monitor ioc =>
    rw [step_monitor_none atoi argv s ioc hm]
    exact ⟨ht, hm, hst, hg, hpc⟩
  | stats =>
    rw [step_stats_none atoi argv s hst]
    exact ⟨ht, hm, hst, hg, hpc⟩
  | signal =>
    rw [step_signal atoi argv s hal, if_pos hparse.1]
    exact ⟨ht, hm, hst, hg, Or.inr (Or.inr ⟨rfl, hparse.2⟩)⟩
  | advance d =>
    rw [step_advance atoi argv s d hal]
    exact ⟨ht, hm, hst, hg, hpc⟩

theorem main_step_config (atoi : String → Int) (argv : List String) (oc : MainOutcome) (s : Sys) :
    ((main_step atoi argv oc s).main.mode = s.main.mode ∧
     (main_step atoi argv oc s).main.num_threads = s.main.num_threads ∧
     (main_step atoi argv oc s).main.duration = s.main.duration) ∨
    (s.main.pc = MainPc.parse ∧
      parse_args atoi argv = ParseResult.run (main_step atoi argv oc s).main.mode
        (main_step atoi argv oc s).main.duration (main_step atoi argv oc s).main.num_threads) := by
  unfold main_step
  split
  · rename_i hpc
    split
    · left; simp
    · rename_i hp
      right
      exact ⟨hpc, hp⟩
  · left; split <;> simp
  · left
    split
    · split <;> simp
    · simp
  · left; simp
  · left; split <;> simp
  · left
    split
    · split
      · simp
      · split <;> simp
    · simp
  · left; split <;> simp
  · left; split <;> simp
  · left; split <;> simp
  · left; simp
  · left; split <;> simp
  · left; simp
  · left; simp
  · left; simp

theorem step_config (atoi : String → Int) (argv : List String) (s : Sys) (e : Event) :
    ((step atoi argv s e).main.mode = s.main.mode ∧
     (step atoi argv s e).main.num_threads = s.main.num_threads ∧
     (step atoi argv s e).main.duration = s.main.duration) ∨
    (s.main.pc = MainPc.parse ∧
      parse_args atoi argv = ParseResult.run (step atoi argv s e).main.mode
        (step atoi argv s e).main.duration (step atoi argv s e).main.num_threads) := by
  unfold step
  split
  · left; simp
  · cases e with
    | main oc => exact main_step_config atoi argv oc s
    | write k doc ioc => left; simp only []; split <;> simp
    | monitor ioc => left; simp only []; split <;> simp
    | stats => left; simp only []; split <;> simp
    | signal => left; simp only []; split <;> simp
    | advance d => left; simp

theorem valid_config_step (atoi : String → Int) (argv : List String) (s : Sys) (e : Event)
    (hs : ValidConfig s) : ValidConfig (step atoi argv s e) := by
  rcases step_config atoi argv s e with ⟨h1, h2, _⟩ | ⟨_, h⟩
  · unfold ValidConfig
    rw [h1, h2]
    exact hs
  · have := parse_args_run atoi argv _ _ _ h
    exact ⟨this.1, this.2.1, this.2.2.1⟩

/-! ### Counting effects and threads -/

theorem info_calls_append (l1 l2 : List Effect) :
    info_calls (l1 ++ l2) = info_calls l1 + info_calls l2 := by
  unfold info_calls; exact List.countP_append _ _ _

theorem info_ok_append (l1 l2 : List Effect) :
    info_ok (l1 ++ l2) = info_ok l1 + info_ok l2 := by
  unfold info_ok; exact List.countP_append _ _ _

theorem dat_writes_append (l1 l2 : List Effect) :
    dat_writes (l1 ++ l2) = dat_writes l1 + dat_writes l2 := by
  unfold dat_writes; exact List.countP_append _ _ _

theorem info_ok_le_calls (l : List Effect) : info_ok l ≤ info_calls l := by
  induction l with
  | nil => simp [info_ok, info_calls]
  | cons e l ih =>
    unfold info_ok info_calls at *
    rw [List.countP_cons, List.countP_cons]
    have : (if decide (e = Effect.info_file 0) = true then 1 else 0) ≤
        (if (match e with
          | Effect.info_file _ => true
          | _ => false) = true then 1 else 0) := by
      cases e <;> simp
      split <;> simp
    omega

theorem count_pc_set (p : WritePc) (t2 : WriteThread) :
    ∀ (ts : List WriteThread) (k : Nat) (t : WriteThread), ts[k]? = some t →
      count_pc p (ts.set k t2) + (if t.pc = p then 1 else 0) =
        count_pc p ts + (if t2.pc = p then 1 else 0) := by
  intro ts
  induction ts with
  | nil => intro k t h; simp at h
  | cons a ts ih =>
    intro k t h
    cases k with
    | zero =>
      simp only [List.getElem?_cons_zero, Option.some.injEq] at h
      subst h
      simp only [List.set_cons_zero, count_pc, List.countP_cons, decide_eq_true_eq]
      omega
    | succ k =>
      simp only [List.getElem?_cons_succ] at h
      have := ih k t h
      simp only [List.set_cons_succ, count_pc, List.countP_cons, decide_eq_true_eq] at this ⊢
      omega

theorem count_pc_append_one (p : WritePc) (ts : List WriteThread) (t : WriteThread) :
    count_pc p (ts ++ [t]) = count_pc p ts + (if t.pc = p then 1 else 0) := by
  simp [count_pc, List.countP_append, List.countP_singleton]

/-! ### What one step of a write thread can be -/

theorem write_info_file_cases (oc : InfoOutcome) (g : Globals) :
    ((write_info_file oc g).1 = 0 ∧
      (write_info_file oc g).2 = { g with g_info_write_count := u64_incr g.g_info_write_count }) ∨
    ((write_info_file oc g).1 = -1 ∧ (write_info_file oc g).2 = g) := by
  unfold write_info_file
  split
  · right; exact ⟨rfl, rfl⟩
  · split
    · right; exact ⟨rfl, rfl⟩
    · split
      · right; exact ⟨rfl, rfl⟩
      · left; exact ⟨rfl, rfl⟩

/-- What one step of a write thread can be. -/
theorem write_thread_step_cases (doc : DatOutcome) (ioc : InfoOutcome) (t : WriteThread)
    (g : Globals) :
    (write_thread_step doc ioc t g).1.targ = t.targ ∧
    ((t.pc ≠ WritePc.count ∧ t.pc ≠ WritePc.info ∧
        (write_thread_step doc ioc t g).1.pc ≠ WritePc.count ∧
        (write_thread_step doc ioc t g).1.pc ≠ WritePc.info ∧
        (write_thread_step doc ioc t g).2.1 = g ∧
        dat_writes (write_thread_step doc ioc t g).2.2 = 0 ∧
        info_calls (write_thread_step doc ioc t g).2.2 = 0) ∨
     (t.pc = WritePc.body ∧
        (write_thread_step doc ioc t g).1.pc = WritePc.count ∧
        (write_thread_step doc ioc t g).2.1 = g ∧
        dat_writes (write_thread_step doc ioc t g).2.2 = 1 ∧
        info_calls (write_thread_step doc ioc t g).2.2 = 0) ∨
     (t.pc = WritePc.count ∧
        (write_thread_step doc ioc t g).1.pc = WritePc.info ∧
        (write_thread_step doc ioc t g).2.1 =
          { g with g_write_count := u64_incr g.g_write_count,
                   g_files_updated := int_incr g.g_files_updated } ∧
        (write_thread_step doc ioc t g).2.2 = []) ∨
     (t.pc = WritePc.info ∧ t.targ.mode ≠ 0 ∧
        (write_thread_step doc ioc t g).1.pc = WritePc.for_test ∧
        (write_thread_step doc ioc t g).2.1 = g ∧
        (write_thread_step doc ioc t g).2.2 = []) ∨
     (t.pc = WritePc.info ∧ t.targ.mode = 0 ∧
        (write_thread_step doc ioc t g).1.pc = WritePc.for_test ∧
        (write_thread_step doc ioc t g).2.1 = (write_info_file ioc g).2 ∧
        (write_thread_step doc ioc t g).2.2 = [Effect.info_file (write_info_file ioc g).1])) := by
  unfold write_thread_step
  split
  · rename_i h
    split <;> simp [h, dat_writes, info_calls]
  · rename_i h
    split <;> simp [h, dat_writes, info_calls]
  · rename_i h
    split
    · simp [h, dat_writes, info_calls]
    · split <;> simp [h, dat_writes, info_calls]
  · rename_i h
    simp [h]
  · rename_i h
    split
    · rename_i hm
      simp [h, hm]
    · rename_i hm
      simp [h, hm]
  · rename_i h
    simp [h, dat_writes, info_calls]
  · rename_i h
    simp [h, dat_writes, info_calls]

@[simp] theorem info_calls_nil : info_calls [] = 0 := rfl

@[simp] theorem dat_writes_nil : dat_writes [] = 0 := rfl

@[simp] theorem info_ok_nil : info_ok [] = 0 := rfl

@[simp] theorem count_pc_nil (p : WritePc) : count_pc p [] = 0 := rfl

@[simp] theorem info_calls_cons (e : Effect) (l : List Effect) :
    info_calls (e :: l) = info_calls l + (match e with
      | Effect.info_file _ => 1
      | _ => 0) := by
  unfold info_calls
  rw [List.countP_cons]
  cases e <;> rfl

@[simp] theorem dat_writes_cons (e : Effect) (l : List Effect) :
    dat_writes (e :: l) = dat_writes l + (match e with
      | Effect.dat_written _ => 1
      | _ => 0) := by
  unfold dat_writes
  rw [List.countP_cons]
  cases e <;> rfl

@[simp] theorem info_ok_cons (e : Effect) (l : List Effect) :
    info_ok (e :: l) = info_ok l + (if e = Effect.info_file 0 then 1 else 0) := by
  unfold info_ok
  rw [List.countP_cons]
  simp

attribute [simp] info_calls_append dat_writes_append info_ok_append count_pc_append_one

theorem parse_args_msg (atoi : String → Int) (argv : List String) (st : Int) (msg : Effect)
    (h : parse_args atoi argv = ParseResult.fail st msg) :
    msg = Effect.usage ∨ msg = Effect.threads_error := by
  unfold parse_args at h
  simp only [] at h
  by_cases h1 : argv.length > 1 ∧
      ((if argv.length > 1 then atoi (argv.getD 1 "") else 1) ≠ 0 ∧
       (if argv.length > 1 then atoi (argv.getD 1 "") else 1) ≠ 1)
  · rw [if_pos h1] at h
    injection h with _ h2; exact Or.inl h2.symm
  · rw [if_neg h1] at h
    by_cases h2 : argv.length > 3 ∧
        ((if argv.length > 3 then atoi (argv.getD 3 "") else 100) < 1 ∨
         (if argv.length > 3 then atoi (argv.getD 3 "") else 100) > NUM_FILES)
    · rw [if_pos h2] at h
      injection h with _ h3; exact Or.inr h3.symm
    · rw [if_neg h2] at h
      cases h

/-! ### Preservation of `Shape`, `Counted` and `Eager` -/

theorem shape_main (atoi : String → Int) (argv : List String) (oc : MainOutcome) (s : Sys)
    (hb : Shape s) : Shape (main_step atoi argv oc s) := by
  obtain ⟨h1, h2, h3, h4⟩ := hb
  unfold Shape at *
  unfold main_step
  split
  · rename_i hpc
    simp only [hpc, MainPc.before_info, MainPc.before_monitor, true_implies] at h1 h2
    obtain ⟨ht, hi, hd⟩ := h1
    split
    · rename_i hp
      rcases parse_args_msg atoi argv _ _ hp with hm | hm <;>
        simp_all [MainPc.before_info, MainPc.before_monitor]
    · simp_all [MainPc.before_info, MainPc.before_monitor]
  · rename_i hpc
    split <;> simp_all [MainPc.before_info, MainPc.before_monitor]
  · rename_i hpc
    split
    · split <;> simp_all [MainPc.before_info, MainPc.before_monitor]
    · simp_all [MainPc.before_info, MainPc.before_monitor]
  · rename_i hpc
    simp_all [MainPc.before_info, MainPc.before_monitor]
  · rename_i hpc
    split <;> simp_all [MainPc.before_info, MainPc.before_monitor]
  · rename_i hpc
    split
    · split
      · simp_all [MainPc.before_info, MainPc.before_monitor]
      · split
        · simp_all [MainPc.before_info, MainPc.before_monitor]
        · simp_all [MainPc.before_info, MainPc.before_monitor]
          intro t ht
          rcases ht with ht | ht
          · exact h3 t ht
          · subst ht; rfl
    · simp_all [MainPc.before_info, MainPc.before_monitor]
  · rename_i hpc
    split <;> simp_all [MainPc.before_info, MainPc.before_monitor]
  · rename_i hpc
    split <;> simp_all [MainPc.before_info, MainPc.before_monitor]
  · rename_i hpc
    split <;> simp_all [MainPc.before_info, MainPc.before_monitor]
  · rename_i hpc
    simp_all [MainPc.before_info, MainPc.before_monitor]
  · rename_i hpc
    split <;> simp_all [MainPc.before_info, MainPc.before_monitor]
  · rename_i hpc
    simp_all [MainPc.before_info, MainPc.before_monitor]
  · rename_i hpc
    simp_all [MainPc.before_info, MainPc.before_monitor]
  · rename_i hpc
    simp_all [MainPc.before_info, MainPc.before_monitor]

theorem u64_incr_mod (n : Nat) : u64_incr (n % UINT64_MOD) = (n + 1) % UINT64_MOD := by
  unfold u64_incr UINT64_MOD
  omega

theorem counted_eager_main (atoi : String → Int) (argv : List String) (oc : MainOutcome)
    (s : Sys) (hs : Shape s) (hc : Counted s) (he : Eager s) :
    Counted (main_step atoi argv oc s) ∧ Eager (main_step atoi argv oc s) := by
  have h1 := hs.1
  clear hs
  obtain ⟨h5, h6, h7⟩ := hc
  unfold Counted Eager at *
  unfold main_step
  split
  · rename_i hpc
    split
    · rename_i hp
      rcases parse_args_msg atoi argv _ _ hp with hm | hm <;> simp_all
    · simp_all
  · split <;> simp_all
  · split
    · split <;> simp_all
    · simp_all
  · rename_i hpc
    simp only [hpc, MainPc.before_info, true_implies] at h1
    obtain ⟨ht, hi, hd⟩ := h1
    have hio : info_ok s.log = 0 := by
      have := info_ok_le_calls s.log
      omega
    rcases write_info_file_cases oc.info s.g with ⟨hr, hg⟩ | ⟨hr, hg⟩
    · simp only [hr, hg, ht, hi, hd, hio]
      simp [u64_incr, UINT64_MOD]
      simp_all
    · simp only [hr, hg, ht, hi, hd, hio]
      simp_all
  · split <;> simp_all
  · split
    · split
      · simp_all
      · split
        · simp_all
        · simp only [count_pc_append_one, dat_writes_append, info_calls_append, info_ok_append]
          simp
          refine ⟨⟨h5, h6, h7⟩, ?_⟩
          intro hall
          apply he
          intro t ht
          exact hall t (Or.inl ht)
    · simp_all
  · split <;> simp_all
  · split <;> simp_all
  · split <;> simp_all
  · simp_all
  · split <;> simp_all
  · simp_all [final_results]
  · simp_all
  · simp_all

theorem inv_write (atoi : String → Int) (argv : List String) (doc : DatOutcome)
    (ioc : InfoOutcome) (s : Sys) (k : Nat) (t : WriteThread) (hal : s.alive = true)
    (hk : s.threads[k]? = some t) (hs : Shape s) (hc : Counted s) (he : Eager s) :
    Shape (step atoi argv s (Event.write k doc ioc)) ∧
    Counted (step atoi argv s (Event.write k doc ioc)) ∧
    Eager (step atoi argv s (Event.write k doc ioc)) := by
  rw [step_write_some atoi argv s k doc ioc t hal hk]
  obtain ⟨h1, h2, h3, h4⟩ := hs
  obtain ⟨h5, h6, h7⟩ := hc
  have hmem : t ∈ s.threads := List.getElem?_mem hk
  have hne : s.threads ≠ [] := List.ne_nil_of_mem hmem
  obtain ⟨htarg, hcases⟩ := write_thread_step_cases doc ioc t s.g
  have hcc := count_pc_set WritePc.count (write_thread_step doc ioc t s.g).1 s.threads k t hk
  have hci := count_pc_set WritePc.info (write_thread_step doc ioc t s.g).1 s.threads k t hk
  have hmodes : ∀ u ∈ s.threads.set k (write_thread_step doc ioc t s.g).1,
      u.targ.mode = s.main.mode := by
    intro u hu
    rcases List.mem_or_eq_of_mem_set hu with hu | hu
    · exact h3 u hu
    · rw [hu, htarg]; exact h3 t hmem
  have hall : (∀ u ∈ s.threads.set k (write_thread_step doc ioc t s.g).1, u.targ.mode = 0) →
      ∀ u ∈ s.threads, u.targ.mode = 0 := by
    intro hx u hu
    have hm : (write_thread_step doc ioc t s.g).1 ∈
        s.threads.set k (write_thread_step doc ioc t s.g).1 := by
      apply List.mem_set
      have := List.getElem?_eq_some.mp hk
      exact this.1
    have h0 := hx _ hm
    rw [htarg, h3 t hmem] at h0
    rw [h3 u hu]; exact h0
  refine ⟨⟨?_, h2, hmodes, h4⟩, ?_⟩
  · intro hb
    exact absurd (h1 hb).1 hne
  unfold Counted Eager
  simp only [dat_writes_append, info_calls_append, info_ok_append]
  rcases hcases with ⟨a1, a2, a3, a4, a5, a6, a7⟩ | ⟨a1, a2, a3, a4, a5⟩ | ⟨a1, a2, a3, a4⟩ |
      ⟨a1, a2, a3, a4, a5⟩ | ⟨a1, a2, a3, a4, a5⟩
  · have a8 : info_ok (write_thread_step doc ioc t s.g).2.2 = 0 := by
      have := info_ok_le_calls (write_thread_step doc ioc t s.g).2.2
      omega
    rw [a5, a6, a7, a8]
    rw [if_neg a1, if_neg a3] at hcc
    rw [if_neg a2, if_neg a4] at hci
    simp only [Nat.add_zero] at hcc hci ⊢
    rw [hcc, hci]
    exact ⟨⟨h5, h6, h7⟩, fun hx => he (hall hx)⟩
  · have a8 : info_ok (write_thread_step doc ioc t s.g).2.2 = 0 := by
      have := info_ok_le_calls (write_thread_step doc ioc t s.g).2.2
      omega
    rw [a3, a4, a5, a8]
    rw [a1, a2] at hcc hci
    simp only [reduceCtorEq, if_false, if_true, Nat.add_zero] at hcc hci ⊢
    rw [hcc, hci]
    refine ⟨⟨by omega, ?_, h7⟩, fun hx => ?_⟩
    · rw [h6]; congr 1; omega
    · have := he (hall hx); omega
  · rw [a3, a4]
    rw [a1, a2] at hcc hci
    simp only [reduceCtorEq, if_false, if_true, Nat.add_zero, dat_writes_nil, info_calls_nil,
      info_ok_nil] at hcc hci ⊢
    refine ⟨⟨by omega, ?_, h7⟩, fun hx => ?_⟩
    · rw [h6, u64_incr_mod]; congr 1; omega
    · have := he (hall hx); omega
  · rw [a4, a5]
    rw [a1, a3] at hcc hci
    simp only [reduceCtorEq, if_false, if_true, Nat.add_zero, dat_writes_nil, info_calls_nil,
      info_ok_nil] at hcc hci ⊢
    refine ⟨⟨by omega, ?_, h7⟩, fun hx => ?_⟩
    · rw [h6]; congr 1; omega
    · exact absurd (hall hx t hmem) a2
  · rw [a4, a5]
    rw [a1, a3] at hcc hci
    simp only [reduceCtorEq, if_false, if_true, Nat.add_zero, dat_writes_nil, info_calls_cons,
      info_calls_nil, dat_writes_cons, info_ok_cons, info_ok_nil, Effect.info_file.injEq]
      at hcc hci ⊢
    rcases write_info_file_cases ioc s.g with ⟨hr, hg⟩ | ⟨hr, hg⟩
    · rw [hr, hg]
      simp only [if_true, Nat.zero_add]
      refine ⟨⟨by omega, ?_, ?_⟩, fun hx => ?_⟩
      · rw [h6]; congr 1; omega
      · rw [h7, u64_incr_mod]
      · have := he (hall hx); omega
    · rw [hr, hg]
      simp only [Nat.zero_add]
      refine ⟨⟨by omega, ?_, ?_⟩, fun hx => ?_⟩
      · rw [h6]; congr 1; omega
      · rw [h7]; simp
      · have := he (hall hx); omega

theorem inv_monitor (atoi : String → Int) (argv : List String) (ioc : InfoOutcome) (s : Sys)
    (m : MonitorThread) (hal : s.alive = true) (hm : s.monitor = some m)
    (hs : Shape s) (hc : Counted s) (he : Eager s) :
    Shape (step atoi argv s (Event.monitor ioc)) ∧
    Counted (step atoi argv s (Event.monitor ioc)) ∧
    Eager (step atoi argv s (Event.monitor ioc)) := by
  rw [step_monitor_some atoi argv s ioc m hal hm]
  obtain ⟨h1, h2, h3, h4⟩ := hs
  obtain ⟨h5, h6, h7⟩ := hc
  have hbm : s.main.pc.before_monitor = false := by
    cases hb : s.main.pc.before_monitor
    · rfl
    · rw [h2 hb] at hm; cases hm
  have hbi : s.main.pc.before_info = false := by
    cases hb : s.main.pc.before_info
    · rfl
    · exfalso
      revert hbm hb
      cases s.main.pc <;> simp [MainPc.before_info, MainPc.before_monitor]
  have h4m := h4 m hm
  unfold Shape Counted Eager
  simp only [hbm, hbi, Bool.false_eq_true, false_implies, true_and, Option.some.injEq,
    forall_eq', dat_writes_append, info_calls_append, info_ok_append]
  unfold monitor_thread_step
  split
  · rename_i hpc
    simp only [dat_writes_nil, info_calls_nil, info_ok_nil, Nat.add_zero]
    exact ⟨⟨h3, fun _ => trivial⟩, ⟨h5, h6, h7⟩, he⟩
  · rename_i hpc
    have h4p := h4m (by rw [hpc]; simp)
    split <;>
    · simp only [dat_writes_nil, info_calls_nil, info_ok_nil, Nat.add_zero]
      exact ⟨⟨h3, fun _ => h4p⟩, ⟨h5, h6, h7⟩, he⟩
  · rename_i hpc
    have h4p := h4m (by rw [hpc]; simp)
    split <;>
    · simp only [dat_writes_nil, info_calls_nil, info_ok_nil, Nat.add_zero]
      exact ⟨⟨h3, fun _ => h4p⟩, ⟨h5, h6, h7⟩, he⟩
  · rename_i hpc
    have h4p := h4m (by rw [hpc]; simp)
    simp only [dat_writes_nil, info_calls_nil, info_ok_nil, Nat.add_zero]
    exact ⟨⟨h3, fun _ => h4p⟩, ⟨h5, h6, h7⟩, he⟩
  · rename_i hpc
    have h4p := h4m (by rw [hpc]; simp)
    split
    · simp only [dat_writes_nil, info_calls_cons, info_calls_nil, dat_writes_cons, info_ok_cons,
        info_ok_nil, Effect.info_file.injEq, reduceCtorEq, if_false, Nat.add_zero, Nat.zero_add]
      rcases write_info_file_cases ioc s.g with ⟨hr, hg⟩ | ⟨hr, hg⟩
      · rw [hr, hg]
        simp only [if_true]
        refine ⟨⟨h3, fun _ => h4p⟩, ⟨h5, h6, ?_⟩, fun hx => ?_⟩
        · rw [h7, u64_incr_mod]
        · have := he hx; omega
      · rw [hr, hg]
        refine ⟨⟨h3, fun _ => h4p⟩, ⟨h5, h6, ?_⟩, fun hx => ?_⟩
        · rw [h7]; simp
        · have := he hx; omega
    · simp only [dat_writes_nil, info_calls_nil, info_ok_nil, Nat.add_zero]
      exact ⟨⟨h3, fun _ => h4p⟩, ⟨h5, h6, h7⟩, he⟩
  · rename_i hpc
    have h4p := h4m (by rw [hpc]; simp)
    simp only [dat_writes_nil, info_calls_nil, info_ok_nil, Nat.add_zero]
    exact ⟨⟨h3, fun _ => h4p⟩, ⟨h5, h6, h7⟩, he⟩
  · rename_i hpc
    have h4p := h4m (by rw [hpc]; simp)
    simp only [dat_writes_nil, info_calls_nil, info_ok_nil, Nat.add_zero]
    exact ⟨⟨h3, fun _ => h4p⟩, ⟨h5, h6, h7⟩, he⟩

theorem inv_frame (s s2 : Sys) (hmode : s2.main.mode = s.main.mode)
    (hbi : s2.main.pc.before_info = true → s.main.pc.before_info = true)
    (hbm : s2.main.pc.before_monitor = true → s.main.pc.before_monitor = true)
    (hth : s2.threads = s.threads) (hmon : s2.monitor = s.monitor)
    (hl1 : info_calls s2.log = info_calls s.log) (hl2 : dat_writes s2.log = dat_writes s.log)
    (hl3 : info_ok s2.log = info_ok s.log)
    (hw : s2.g.g_write_count = s.g.g_write_count)
    (hi : s2.g.g_info_write_count = s.g.g_info_write_count)
    (hs : Shape s) (hc : Counted s) (he : Eager s) :
    Shape s2 ∧ Counted s2 ∧ Eager s2 := by
  unfold Shape Counted Eager at *
  rw [hmode, hth, hmon, hl1, hl2, hl3, hw, hi]
  exact ⟨⟨fun h => hs.1 (hbi h), fun h => hs.2.1 (hbm h), hs.2.2⟩, hc, he⟩

theorem inv_step (atoi : String → Int) (argv : List String) (s : Sys) (e : Event)
    (h : Shape s ∧ Counted s ∧ Eager s) :
    Shape (step atoi argv s e) ∧ Counted (step atoi argv s e) ∧ Eager (step atoi argv s e) := by
  obtain ⟨hs, hc, he⟩ := h
  by_cases hal : s.alive = true
  swap
  · rw [step_dead atoi argv s e (by simpa using hal)]
    exact ⟨hs, hc, he⟩
  cases e with
  | main oc =>
    rw [step_main atoi argv s oc hal]
    exact ⟨shape_main atoi argv oc s hs, counted_eager_main atoi argv oc s hs hc he⟩
  | write k doc ioc =>
    cases hk : s.threads[k]? with
    | none =>
      rw [step_write_none atoi argv s k doc ioc hk]
      exact ⟨hs, hc, he⟩
    | some t => exact inv_write atoi argv doc ioc s k t hal hk hs hc he
  | monitor ioc =>
    cases hm : s.monitor with
    | none =>
      rw [step_monitor_none atoi argv s ioc hm]
      exact ⟨hs, hc, he⟩
    | some m => exact inv_monitor atoi argv ioc s m hal hm hs hc he
  | stats =>
    cases hst : s.stats with
    | none =>
      rw [step_stats_none atoi argv s hst]
      exact ⟨hs, hc, he⟩
    | some st =>
      rw [step_stats_some atoi argv s st hal hst]
      have hg := stats_thread_step_globals s.clock st s.g
      have hl : (stats_thread_step s.clock st s.g).2.2 = [] ∨
          ∃ a b c d f, (stats_thread_step s.clock st s.g).2.2 = [Effect.stats_line a b c d f] := by
        unfold stats_thread_step
        split
        · left; rfl
        · left; split <;> rfl
        · right; exact ⟨_, _, _, _, _, rfl⟩
        · left; rfl
      refine inv_frame s _ ?_ ?_ ?_ ?_ ?_ ?_ ?_ ?_ ?_ ?_ hs hc he
      · rfl
      · exact fun h => h
      · exact fun h => h
      · rfl
      · rfl
      · rcases hl with hl | ⟨a, b, c, d, f, hl⟩ <;> simp [hl]
      · rcases hl with hl | ⟨a, b, c, d, f, hl⟩ <;> simp [hl]
      · rcases hl with hl | ⟨a, b, c, d, f, hl⟩ <;> simp [hl]
      · show (stats_thread_step s.clock st s.g).2.1.g_write_count = s.g.g_write_count
        rw [hg]
      · show (stats_thread_step s.clock st s.g).2.1.g_info_write_count = s.g.g_info_write_count
        rw [hg]
  | signal =>
    rw [step_signal atoi argv s hal]
    split
    · refine inv_frame s _ ?_ ?_ ?_ ?_ ?_ ?_ ?_ ?_ ?_ ?_ hs hc he
      · rfl
      · intro h; simp [MainPc.before_info] at h
      · intro h; simp [MainPc.before_monitor] at h
      all_goals rfl
    · refine inv_frame s _ ?_ ?_ ?_ ?_ ?_ ?_ ?_ ?_ ?_ ?_ hs hc he
      · rfl
      · exact fun h => h
      · exact fun h => h
      all_goals rfl
  | advance d =>
    rw [step_advance atoi argv s d hal]
    refine inv_frame s _ ?_ ?_ ?_ ?_ ?_ ?_ ?_ ?_ ?_ ?_ hs hc he
    · rfl
    · exact fun h => h
    · exact fun h => h
    all_goals rfl

/-! ### Preservation of `Timed` -/

theorem timed_frame (c0 : Int) (s s2 : Sys) (hmode : s2.main.mode = s.main.mode)
    (hmon : s2.monitor = s.monitor) (hl : info_calls s2.log = info_calls s.log)
    (hclock : s.clock ≤ s2.clock) (ht : Timed c0 s) : Timed c0 s2 := by
  unfold Timed at *
  rw [hmode, hmon, hl]
  refine ⟨by omega, fun h => ?_⟩
  have h2 := ht.2 h
  split
  · rename_i hm
    simp only [hm] at h2
    exact h2
  · rename_i m hm
    simp only [hm] at h2
    split
    · rename_i hpc
      rw [if_pos hpc] at h2
      exact h2
    · rename_i hpc
      rw [if_neg hpc] at h2
      exact ⟨by omega, h2.2⟩

theorem timed_main (atoi : String → Int) (argv : List String) (oc : MainOutcome) (s : Sys)
    (c0 : Int) (hs : Shape s) (ht : Timed c0 s) : Timed c0 (main_step atoi argv oc s) := by
  have h1 := hs.1
  have h2 := hs.2.1
  clear hs
  unfold main_step
  split
  · rename_i hpc
    simp only [hpc, MainPc.before_info, MainPc.before_monitor, true_implies] at h1 h2
    split
    · rename_i hp
      refine timed_frame c0 s _ rfl rfl ?_ (le_refl _) ht
      rcases parse_args_msg atoi argv _ _ hp with hm | hm <;> simp [hm]
    · unfold Timed at *
      simp only [h2, h1.2.1]
      exact ⟨ht.1, fun _ => by omega⟩
  · split
    · exact timed_frame c0 s _ rfl rfl rfl (le_refl _) ht
    · exact timed_frame c0 s _ rfl rfl (by simp) (le_refl _) ht
  · split
    · split
      · exact timed_frame c0 s _ rfl rfl (by simp) (le_refl _) ht
      · exact timed_frame c0 s _ rfl rfl (by simp) (le_refl _) ht
    · exact timed_frame c0 s _ rfl rfl (by simp) (le_refl _) ht
  · rename_i hpc
    simp only [hpc, MainPc.before_info, MainPc.before_monitor, true_implies] at h1 h2
    unfold Timed at *
    simp only [h2, h1.2.1, info_calls_append, info_calls_cons, info_calls_nil]
    exact ⟨ht.1, fun _ => by omega⟩
  · split
    · exact timed_frame c0 s _ rfl rfl rfl (le_refl _) ht
    · exact timed_frame c0 s _ rfl rfl rfl (le_refl _) ht
  · split
    · split
      · exact timed_frame c0 s _ rfl rfl rfl (le_refl _) ht
      · split
        · exact timed_frame c0 s _ rfl rfl rfl (le_refl _) ht
        · exact timed_frame c0 s _ rfl rfl (by simp) (le_refl _) ht
    · exact timed_frame c0 s _ rfl rfl rfl (le_refl _) ht
  · rename_i hpc
    simp only [hpc, MainPc.before_monitor, true_implies] at h2
    split
    · exact timed_frame c0 s _ rfl rfl rfl (le_refl _) ht
    · unfold Timed at *
      simp only [h2] at ht
      simp only [info_calls_append, info_calls_cons, info_calls_nil, if_true]
      exact ⟨ht.1, fun h => by have := ht.2 h; omega⟩
  · split
    · exact timed_frame c0 s _ rfl rfl rfl (le_refl _) ht
    · exact timed_frame c0 s _ rfl rfl (by simp) (le_refl _) ht
  · split
    · exact timed_frame c0 s _ rfl rfl rfl (le_refl _) ht
    · exact timed_frame c0 s _ rfl rfl rfl (le_refl _) ht
  · exact timed_frame c0 s _ rfl rfl rfl (le_refl _) ht
  · split
    · exact timed_frame c0 s _ rfl rfl rfl (le_refl _) ht
    · exact ht
  · exact timed_frame c0 s _ rfl rfl (by simp [final_results]) (le_refl _) ht
  · exact ht
  · exact ht

theorem timed_write (atoi : String → Int) (argv : List String) (doc : DatOutcome)
    (ioc : InfoOutcome) (s : Sys) (k : Nat) (t : WriteThread) (c0 : Int) (hal : s.alive = true)
    (hk : s.threads[k]? = some t) (hs : Shape s) (ht : Timed c0 s) :
    Timed c0 (step atoi argv s (Event.write k doc ioc)) := by
  rw [step_write_some atoi argv s k doc ioc t hal hk]
  by_cases hmode : s.main.mode = 1
  · refine timed_frame c0 s _ rfl rfl ?_ (le_refl _) ht
    have hmem : t ∈ s.threads := List.getElem?_mem hk
    have htm : t.targ.mode = 1 := by rw [hs.2.2.1 t hmem, hmode]
    obtain ⟨_, hcases⟩ := write_thread_step_cases doc ioc t s.g
    simp only [info_calls_append]
    rcases hcases with ⟨a1, a2, a3, a4, a5, a6, a7⟩ | ⟨a1, a2, a3, a4, a5⟩ | ⟨a1, a2, a3, a4⟩ |
      ⟨a1, a2, a3, a4, a5⟩ | ⟨a1, a2, a3, a4, a5⟩
    · rw [a7]; rfl
    · rw [a5]; rfl
    · rw [a4]; rfl
    · rw [a5]; rfl
    · rw [htm] at a2; cases a2
  · exact ⟨ht.1, fun h => absurd h hmode⟩

theorem timed_monitor (atoi : String → Int) (argv : List String) (ioc : InfoOutcome) (s : Sys)
    (m : MonitorThread) (c0 : Int) (hal : s.alive = true) (hm : s.monitor = some m)
    (hs : Shape s) (ht : Timed c0 s) :
    Timed c0 (step atoi argv s (Event.monitor ioc)) := by
  rw [step_monitor_some atoi argv s ioc m hal hm]
  obtain ⟨hc, ht2⟩ := ht
  refine ⟨hc, fun hmode => ?_⟩
  have h2 := ht2 hmode
  simp only [hm] at h2
  have h4 := hs.2.2.2 m hm
  simp only [info_calls_append]
  unfold FLUSH_INTERVAL_SEC at *
  cases hpc : m.pc with
  | init =>
    simp only [hpc, if_true] at h2
    simp only [monitor_thread_step, hpc, reduceCtorEq, if_false, mon_now, mon_due,
      info_calls_nil]
    omega
  | while_test =>
    simp only [hpc, reduceCtorEq, if_false, mon_now, mon_due] at h2
    simp only [monitor_thread_step, hpc]
    by_cases hr : s.g.g_running = true
    · simp only [hr, if_true, reduceCtorEq, if_false, mon_now, mon_due, info_calls_nil]
      omega
    · simp only [hr, if_false, reduceCtorEq, mon_now, mon_due, info_calls_nil]
      omega
  | sleep =>
    simp only [hpc, reduceCtorEq, if_false, mon_now, mon_due] at h2
    simp only [monitor_thread_step, hpc, FLUSH_INTERVAL_SEC]
    by_cases hr : s.clock - m.start_time ≥ 30
    · simp only [hr, if_true, reduceCtorEq, if_false, mon_now, mon_due, info_calls_nil]
      omega
    · simp only [hr, if_false, reduceCtorEq, mon_now, mon_due, info_calls_nil]
      omega
  | evaluate =>
    simp only [hpc, reduceCtorEq, if_false, mon_now, mon_due] at h2
    simp only [monitor_thread_step, hpc, reduceCtorEq, if_false, mon_now, mon_due,
      info_calls_nil]
    omega
  | flush =>
    simp only [hpc, reduceCtorEq, if_false, mon_now, mon_due] at h2
    simp only [monitor_thread_step, hpc]
    by_cases hr : m.mode = 1 ∧ m.updated > 0
    · simp only [hr, and_self, if_true, reduceCtorEq, if_false, mon_now, mon_due,
        info_calls_nil, info_calls_cons]
      push_cast
      omega
    · simp only [hr, if_false, reduceCtorEq, mon_now, mon_due, info_calls_nil]
      omega
  | restart =>
    simp only [hpc, reduceCtorEq, if_false, mon_now, mon_due] at h2
    simp only [monitor_thread_step, hpc, reduceCtorEq, if_false, mon_now, mon_due,
      info_calls_nil]
    omega
  | exited =>
    simp only [hpc, reduceCtorEq, if_false, mon_now, mon_due] at h2
    simp only [monitor_thread_step, hpc, reduceCtorEq, if_false, mon_now, mon_due,
      info_calls_nil]
    omega

theorem timed_step (atoi : String → Int) (argv : List String) (c0 : Int) (s : Sys) (e : Event)
    (hok : ∀ d, e = Event.advance d → 0 ≤ d)
    (h : (Shape s ∧ Counted s ∧ Eager s) ∧ Timed c0 s) :
    (Shape (step atoi argv s e) ∧ Counted (step atoi argv s e) ∧ Eager (step atoi argv s e)) ∧
    Timed c0 (step atoi argv s e) := by
  obtain ⟨hinv, ht⟩ := h
  refine ⟨inv_step atoi argv s e hinv, ?_⟩
  have hs := hinv.1
  by_cases hal : s.alive = true
  swap
  · rw [step_dead atoi argv s e (by simpa using hal)]
    exact ht
  cases e with
  | main oc =>
    rw [step_main atoi argv s oc hal]
    exact timed_main atoi argv oc s c0 hs ht
  | write k doc ioc =>
    cases hk : s.threads[k]? with
    | none =>
      rw [step_write_none atoi argv s k doc ioc hk]
      exact ht
    | some t => exact timed_write atoi argv doc ioc s k t c0 hal hk hs ht
  | monitor ioc =>
    cases hm : s.monitor with
    | none =>
      rw [step_monitor_none atoi argv s ioc hm]
      exact ht
    | some m => exact timed_monitor atoi argv ioc s m c0 hal hm hs ht
  | stats =>
    cases hst : s.stats with
    | none =>
      rw [step_stats_none atoi argv s hst]
      exact ht
    | some st =>
      rw [step_stats_some atoi argv s st hal hst]
      refine timed_frame c0 s _ rfl rfl ?_ (le_refl _) ht
      simp only [info_calls_append]
      unfold stats_thread_step
      split
      · rfl
      · split <;> rfl
      · rfl
      · rfl
  | signal =>
    rw [step_signal atoi argv s hal]
    split
    · exact timed_frame c0 s _ rfl rfl rfl (le_refl _) ht
    · exact timed_frame c0 s _ rfl rfl rfl (le_refl _) ht
  | advance d =>
    rw [step_advance atoi argv s d hal]
    have := hok d rfl
    exact timed_frame c0 s _ rfl rfl rfl (by show s.clock ≤ s.clock + d; omega) ht

/-! ### The invariants hold in every state of a run -/

theorem initial_inv (c0 : Int) :
    (Shape (Sys.initial c0) ∧ Counted (Sys.initial c0) ∧ Eager (Sys.initial c0)) ∧
    Timed c0 (Sys.initial c0) := by
  refine ⟨⟨⟨?_, ?_, ?_, ?_⟩, ⟨?_, ?_, ?_⟩, ?_⟩, ?_, ?_⟩
  · intro _; exact ⟨rfl, rfl, rfl⟩
  · intro _; rfl
  · intro t ht; simp [Sys.initial] at ht
  · intro m hm; simp [Sys.initial] at hm
  · simp [Sys.initial]
  · simp [Sys.initial, Globals.initial]
  · simp [Sys.initial, Globals.initial]
  · intro _; simp [Sys.initial]
  · simp [Sys.initial]
  · intro _; simp [Sys.initial]

theorem reachable_inv (atoi : String → Int) (argv : List String) (c0 : Int) (evs : List Event) :
    Shape (exec atoi argv (Sys.initial c0) evs) ∧ Counted (exec atoi argv (Sys.initial c0) evs) ∧
    Eager (exec atoi argv (Sys.initial c0) evs) :=
  exec_invariant atoi argv (fun s => Shape s ∧ Counted s ∧ Eager s) (fun _ => True)
    (fun s e _ h => inv_step atoi argv s e h) evs (Sys.initial c0) (fun _ _ => trivial)
    (initial_inv c0).1

theorem reachable_timed (atoi : String → Int) (argv : List String) (c0 : Int)
    (evs : List Event) (hclock : ∀ d, Event.advance d ∈ evs → 0 ≤ d) :
    (Shape (exec atoi argv (Sys.initial c0) evs) ∧ Counted (exec atoi argv (Sys.initial c0) evs) ∧
      Eager (exec atoi argv (Sys.initial c0) evs)) ∧
    Timed c0 (exec atoi argv (Sys.initial c0) evs) :=
  exec_invariant atoi argv (fun s => (Shape s ∧ Counted s ∧ Eager s) ∧ Timed c0 s)
    (fun e => ∀ d, e = Event.advance d → 0 ≤ d)
    (fun s e hok h => timed_step atoi argv c0 s e hok h) evs (Sys.initial c0)
    (fun _ he d hd => hclock d (hd ▸ he))
    (initial_inv c0)

theorem batched_trace_clock : ∀ d, Event.advance d ∈ batched_trace → 0 ≤ d := by
  intro d hd
  simp [batched_trace, one_second] at hd
  omega

/-! ### Preservation of `Assigned` -/

theorem assigned_frame (s s2 : Sys) (hn : s2.main.num_threads = s.main.num_threads)
    (hth : s2.threads = s.threads)
    (hb : s2.main.pc.before_spawn = true → s.main.pc.before_spawn = true)
    (hp : s2.main.pc = MainPc.spawn → s.main.pc = MainPc.spawn ∧ s2.main.i = s.main.i ∧
      s2.main.files_per_thread = s.main.files_per_thread ∧ s2.main.remainder = s.main.remainder)
    (ha : Assigned s) : Assigned s2 := by
  unfold Assigned at *
  rw [hn, hth]
  refine ⟨fun h => ha.1 (hb h), fun h => ?_, ha.2.2⟩
  obtain ⟨h1, h2, h3, h4⟩ := hp h
  rw [h2, h3, h4]
  exact ha.2.1 h1

theorem assigned_main (atoi : String → Int) (argv : List String) (oc : MainOutcome) (s : Sys)
    (ha : Assigned s) : Assigned (main_step atoi argv oc s) := by
  unfold main_step
  split
  · rename_i hpc
    have ht := ha.1 (by rw [hpc]; rfl)
    split
    · refine assigned_frame s _ rfl rfl ?_ ?_ ha
      · intro h; simp [MainPc.before_spawn] at h
      · intro h; simp at h
    · unfold Assigned
      simp [ht, MainPc.before_spawn]
  · split
    · refine assigned_frame s _ rfl rfl ?_ ?_ ha
      · intro h; simp [MainPc.before_spawn] at h
      · intro h; simp at h
    · rename_i hpc _
      refine assigned_frame s _ rfl rfl ?_ ?_ ha
      · intro _; rw [hpc]; rfl
      · intro h; simp at h
  · rename_i hpc
    split
    · split
      · refine assigned_frame s _ rfl rfl ?_ ?_ ha
        · intro h; simp [MainPc.before_spawn] at h
        · intro h; simp at h
      · refine assigned_frame s _ rfl rfl ?_ ?_ ha
        · intro _; rw [hpc]; rfl
        · intro h; simp at h
    · refine assigned_frame s _ rfl rfl ?_ ?_ ha
      · intro _; rw [hpc]; rfl
      · intro h; simp at h
  · rename_i hpc
    refine assigned_frame s _ rfl rfl ?_ ?_ ha
    · intro _; rw [hpc]; rfl
    · intro h; simp at h
  · rename_i hpc
    have ht := ha.1 (by rw [hpc]; rfl)
    split
    · refine assigned_frame s _ rfl rfl ?_ ?_ ha
      · intro h; simp [MainPc.before_spawn] at h
      · intro h; simp at h
    · unfold Assigned
      simp [ht, MainPc.before_spawn, files_per_thread, remainder]
  · rename_i hpc
    obtain ⟨hi, hf, hr⟩ := ha.2.1 hpc
    split
    · rename_i hlt
      split
      · refine assigned_frame s _ rfl rfl ?_ ?_ ha
        · intro h; simp [MainPc.before_spawn] at h
        · intro h; simp at h
      · split
        · refine assigned_frame s _ rfl rfl ?_ ?_ ha
          · intro h; simp [MainPc.before_spawn] at h
          · intro h; simp at h
        · unfold Assigned
          simp only [hpc, MainPc.before_spawn, Bool.false_eq_true, false_implies, true_implies,
            true_and, List.length_append, List.length_singleton]
          refine ⟨⟨by rw [hi]; push_cast; rfl, hf, hr⟩, ?_⟩
          intro k t hk
          by_cases hkl : k < s.threads.length
          · rw [List.getElem?_append_left hkl] at hk
            exact ha.2.2 k t hk
          · have hge : s.threads.length ≤ k := by omega
            rw [List.getElem?_append_right hge] at hk
            have hk0 : k - s.threads.length = 0 := by
              by_contra hne
              rw [List.getElem?_eq_none (by simp only [List.length_singleton]; omega)] at hk
              cases hk
            rw [hk0] at hk
            simp only [List.getElem?_cons_zero, Option.some.injEq] at hk
            have hke : (k : Int) = s.main.i := by omega
            subst hk
            simp only [start_id, end_id, hke, ← hf, ← hr]
            exact ⟨trivial, trivial, hlt⟩
    · refine assigned_frame s _ rfl rfl ?_ ?_ ha
      · intro h; simp [MainPc.before_spawn] at h
      · intro h; simp at h
  · split <;>
    · refine assigned_frame s _ rfl rfl ?_ ?_ ha
      · intro h; simp [MainPc.before_spawn] at h
      · intro h; simp at h
  · split <;>
    · refine assigned_frame s _ rfl rfl ?_ ?_ ha
      · intro h; simp [MainPc.before_spawn] at h
      · intro h; simp at h
  · rename_i hpc
    split
    · refine assigned_frame s _ rfl rfl ?_ ?_ ha
      · intro h; simp [hpc, MainPc.before_spawn] at h
      · intro h; simp [hpc] at h
    · refine assigned_frame s _ rfl rfl ?_ ?_ ha
      · intro h; simp [MainPc.before_spawn] at h
      · intro h; simp at h
  · refine assigned_frame s _ rfl rfl ?_ ?_ ha
    · intro h; simp [MainPc.before_spawn] at h
    · intro h; simp at h
  · rename_i hpc
    split
    · refine assigned_frame s _ rfl rfl ?_ ?_ ha
      · intro h; simp [MainPc.before_spawn] at h
      · intro h; simp at h
    · exact ha
  · refine assigned_frame s _ rfl rfl ?_ ?_ ha
    · intro h; simp [MainPc.before_spawn] at h
    · intro h; simp at h
  · exact ha
  · exact ha

theorem assigned_step (atoi : String → Int) (argv : List String) (s : Sys) (e : Event)
    (ha : Assigned s) : Assigned (step atoi argv s e) := by
  by_cases hal : s.alive = true
  swap
  · rw [step_dead atoi argv s e (by simpa using hal)]
    exact ha
  cases e with
  | main oc =>
    rw [step_main atoi argv s oc hal]
    exact assigned_main atoi argv oc s ha
  | write k doc ioc =>
    cases hk : s.threads[k]? with
    | none =>
      rw [step_write_none atoi argv s k doc ioc hk]
      exact ha
    | some t =>
      rw [step_write_some atoi argv s k doc ioc t hal hk]
      obtain ⟨htarg, _⟩ := write_thread_step_cases doc ioc t s.g
      obtain ⟨h1, h2, h3⟩ := ha
      refine ⟨fun h => ?_, fun h => ?_, fun j u hj => ?_⟩
      · show s.threads.set k _ = []
        rw [h1 h]; rfl
      · show s.main.i = ((s.threads.set k _).length : Int) ∧ _
        rw [List.length_set]
        exact h2 h
      · have hj2 : (s.threads.set k (write_thread_step doc ioc t s.g).1)[j]? = some u := hj
        rw [List.getElem?_set] at hj2
        by_cases hkj : k = j
        · rw [if_pos hkj] at hj2
          split at hj2
          · cases hj2
            show (write_thread_step doc ioc t s.g).1.targ.start_id = _ ∧
              (write_thread_step doc ioc t s.g).1.targ.end_id = _ ∧ _
            rw [htarg]
            exact h3 j t (hkj ▸ hk)
          · cases hj2
        · rw [if_neg hkj] at hj2
          exact h3 j u hj2
  | monitor ioc =>
    cases hm : s.monitor with
    | none =>
      rw [step_monitor_none atoi argv s ioc hm]
      exact ha
    | some m =>
      rw [step_monitor_some atoi argv s ioc m hal hm]
      exact assigned_frame s _ rfl rfl (fun h => h) (fun h => ⟨h, rfl, rfl, rfl⟩) ha
  | stats =>
    cases hst : s.stats with
    | none =>
      rw [step_stats_none atoi argv s hst]
      exact ha
    | some st =>
      rw [step_stats_some atoi argv s st hal hst]
      exact assigned_frame s _ rfl rfl (fun h => h) (fun h => ⟨h, rfl, rfl, rfl⟩) ha
  | signal =>
    rw [step_signal atoi argv s hal]
    split
    · refine assigned_frame s _ rfl rfl ?_ ?_ ha
      · intro h; simp [MainPc.before_spawn] at h
      · intro h; simp at h
    · exact assigned_frame s _ rfl rfl (fun h => h) (fun h => ⟨h, rfl, rfl, rfl⟩) ha
  | advance d =>
    rw [step_advance atoi argv s d hal]
    exact assigned_frame s _ rfl rfl (fun h => h) (fun h => ⟨h, rfl, rfl, rfl⟩) ha

theorem reachable_assigned (atoi : String → Int) (argv : List String) (c0 : Int)
    (evs : List Event) : Assigned (exec atoi argv (Sys.initial c0) evs) :=
  exec_invariant atoi argv Assigned (fun _ => True)
    (fun s e _ h => assigned_step atoi argv s e h) evs (Sys.initial c0) (fun _ _ => trivial)
    ⟨fun _ => rfl, fun h => by simp [Sys.initial] at h, fun k t h => by simp [Sys.initial] at h⟩

/-! ### Preservation of `Paced` -/

@[simp] theorem flushes_nil : flushes [] = 0 := rfl

@[simp] theorem flushes_cons (e : Effect) (l : List Effect) :
    flushes (e :: l) = flushes l + (match e with
      | Effect.flushed _ _ => 1
      | _ => 0) := by
  unfold flushes
  rw [List.countP_cons]
  cases e <;> rfl

@[simp] theorem flushes_append (l1 l2 : List Effect) :
    flushes (l1 ++ l2) = flushes l1 + flushes l2 := by
  unfold flushes; exact List.countP_append _ _ _

theorem paced_frame (c0 : Int) (s s2 : Sys)
    (hmon : s2.monitor = s.monitor) (hl : flushes s2.log = flushes s.log)
    (hclock : s.clock ≤ s2.clock) (ht : Paced c0 s) : Paced c0 s2 := by
  unfold Paced at *
  rw [hmon, hl]
  refine ⟨by omega, ?_⟩
  have h2 := ht.2
  split
  · rename_i hm
    simp only [hm] at h2
    exact h2
  · rename_i m hm
    simp only [hm] at h2
    split
    · rename_i hpc
      rw [if_pos hpc] at h2
      exact h2
    · rename_i hpc
      rw [if_neg hpc] at h2
      exact ⟨by omega, h2.2⟩

theorem main_step_flushes (atoi : String → Int) (argv : List String) (oc : MainOutcome)
    (s : Sys) :
    flushes (main_step atoi argv oc s).log = flushes s.log ∧
    (main_step atoi argv oc s).clock = s.clock ∧
    ((main_step atoi argv oc s).monitor = s.monitor ∨
      (s.main.pc = MainPc.spawn_monitor ∧
        ∃ m, (main_step atoi argv oc s).monitor = some m ∧ m.pc = MonitorPc.init)) := by
  unfold main_step
  split
  · split
    · rename_i hp
      rcases parse_args_msg atoi argv _ _ hp with hm | hm <;> simp [hm]
    · simp
  · split <;> simp
  · split
    · split <;> simp
    · simp
  · simp
  · split <;> simp
  · split
    · split
      · simp
      · split <;> simp
    · simp
  · rename_i hpc
    split
    · simp
    · simp [hpc]
  · split <;> simp
  · split <;> simp
  · simp
  · split <;> simp
  · simp [final_results]
  · simp
  · simp

theorem paced_main (atoi : String → Int) (argv : List String) (oc : MainOutcome) (s : Sys)
    (c0 : Int) (hs : Shape s) (ht : Paced c0 s) : Paced c0 (main_step atoi argv oc s) := by
  obtain ⟨h1, h2, h3⟩ := main_step_flushes atoi argv oc s
  rcases h3 with h3 | ⟨hpc, m, hm, hmpc⟩
  · exact paced_frame c0 s _ h3 h1 (by rw [h2]) ht
  · have hnone := hs.2.1 (by rw [hpc]; rfl)
    unfold Paced at *
    rw [hnone] at ht
    rw [hm, h1, h2]
    simp only [hmpc, if_true]
    exact ⟨ht.1, ht.2⟩

theorem write_thread_step_flushes (doc : DatOutcome) (ioc : InfoOutcome) (t : WriteThread)
    (g : Globals) : flushes (write_thread_step doc ioc t g).2.2 = 0 := by
  unfold write_thread_step
  split
  · split <;> rfl
  · split <;> rfl
  · split
    · rfl
    · split <;> rfl
  · rfl
  · split <;> rfl
  · rfl
  · rfl

theorem paced_monitor (atoi : String → Int) (argv : List String) (ioc : InfoOutcome) (s : Sys)
    (m : MonitorThread) (c0 : Int) (hal : s.alive = true) (hm : s.monitor = some m)
    (ht : Paced c0 s) :
    Paced c0 (step atoi argv s (Event.monitor ioc)) := by
  rw [step_monitor_some atoi argv s ioc m hal hm]
  obtain ⟨hc, h2⟩ := ht
  refine ⟨hc, ?_⟩
  simp only [hm] at h2
  simp only [flushes_append]
  unfold FLUSH_INTERVAL_SEC at *
  cases hpc : m.pc with
  | init =>
    simp only [hpc, if_true] at h2
    simp only [monitor_thread_step, hpc, reduceCtorEq, if_false, mon_now, mon_due,
      flushes_nil]
    omega
  | while_test =>
    simp only [hpc, reduceCtorEq, if_false, mon_now, mon_due] at h2
    simp only [monitor_thread_step, hpc]
    by_cases hr : s.g.g_running = true
    · simp only [hr, if_true, reduceCtorEq, if_false, mon_now, mon_due, flushes_nil]
      omega
    · simp only [hr, if_false, reduceCtorEq, mon_now, mon_due, flushes_nil]
      omega
  | sleep =>
    simp only [hpc, reduceCtorEq, if_false, mon_now, mon_due] at h2
    simp only [monitor_thread_step, hpc, FLUSH_INTERVAL_SEC]
    by_cases hr : s.clock - m.start_time ≥ 30
    · simp only [hr, if_true, reduceCtorEq, if_false, mon_now, mon_due, flushes_nil]
      omega
    · simp only [hr, if_false, reduceCtorEq, mon_now, mon_due, flushes_nil]
      omega
  | evaluate =>
    simp only [hpc, reduceCtorEq, if_false, mon_now, mon_due] at h2
    simp only [monitor_thread_step, hpc, reduceCtorEq, if_false, mon_now, mon_due,
      flushes_nil]
    omega
  | flush =>
    simp only [hpc, reduceCtorEq, if_false, mon_now, mon_due] at h2
    simp only [monitor_thread_step, hpc]
    by_cases hr : m.mode = 1 ∧ m.updated > 0
    · simp only [hr, and_self, if_true, reduceCtorEq, if_false, mon_now, mon_due,
        flushes_nil, flushes_cons]
      push_cast
      omega
    · simp only [hr, if_false, reduceCtorEq, mon_now, mon_due, flushes_nil]
      omega
  | restart =>
    simp only [hpc, reduceCtorEq, if_false, mon_now, mon_due] at h2
    simp only [monitor_thread_step, hpc, reduceCtorEq, if_false, mon_now, mon_due,
      flushes_nil]
    omega
  | exited =>
    simp only [hpc, reduceCtorEq, if_false, mon_now, mon_due] at h2
    simp only [monitor_thread_step, hpc, reduceCtorEq, if_false, mon_now, mon_due,
      flushes_nil]
    omega

theorem paced_step (atoi : String → Int) (argv : List String) (c0 : Int) (s : Sys) (e : Event)
    (hok : ∀ d, e = Event.advance d → 0 ≤ d)
    (h : (Shape s ∧ Counted s ∧ Eager s) ∧ Paced c0 s) :
    (Shape (step atoi argv s e) ∧ Counted (step atoi argv s e) ∧ Eager (step atoi argv s e)) ∧
    Paced c0 (step atoi argv s e) := by
  obtain ⟨hinv, ht⟩ := h
  refine ⟨inv_step atoi argv s e hinv, ?_⟩
  have hs := hinv.1
  by_cases hal : s.alive = true
  swap
  · rw [step_dead atoi argv s e (by simpa using hal)]
    exact ht
  cases e with
  | main oc =>
    rw [step_main atoi argv s oc hal]
    exact paced_main atoi argv oc s c0 hs ht
  | write k doc ioc =>
    cases hk : s.threads[k]? with
    | none =>
      rw [step_write_none atoi argv s k doc ioc hk]
      exact ht
    | some t =>
      rw [step_write_some atoi argv s k doc ioc t hal hk]
      refine paced_frame c0 s _ rfl ?_ (le_refl _) ht
      simp only [flushes_append, write_thread_step_flushes, Nat.add_zero]
  | monitor ioc =>
    cases hm : s.monitor with
    | none =>
      rw [step_monitor_none atoi argv s ioc hm]
      exact ht
    | some m => exact paced_monitor atoi argv ioc s m c0 hal hm ht
  | stats =>
    cases hst : s.stats with
    | none =>
      rw [step_stats_none atoi argv s hst]
      exact ht
    | some st =>
      rw [step_stats_some atoi argv s st hal hst]
      refine paced_frame c0 s _ rfl ?_ (le_refl _) ht
      simp only [flushes_append]
      unfold stats_thread_step
      split
      · rfl
      · split <;> rfl
      · rfl
      · rfl
  | signal =>
    rw [step_signal atoi argv s hal]
    split
    · exact paced_frame c0 s _ rfl rfl (le_refl _) ht
    · exact paced_frame c0 s _ rfl rfl (le_refl _) ht
  | advance d =>
    rw [step_advance atoi argv s d hal]
    have := hok d rfl
    exact paced_frame c0 s _ rfl rfl (by show s.clock ≤ s.clock + d; omega) ht

theorem reachable_paced (atoi : String → Int) (argv : List String) (c0 : Int)
    (evs : List Event) (hclock : ∀ d, Event.advance d ∈ evs → 0 ≤ d) :
    Paced c0 (exec atoi argv (Sys.initial c0) evs) :=
  (exec_invariant atoi argv (fun s => (Shape s ∧ Counted s ∧ Eager s) ∧ Paced c0 s)
    (fun e => ∀ d, e = Event.advance d → 0 ≤ d)
    (fun s e hok h => paced_step atoi argv c0 s e hok h) evs (Sys.initial c0)
    (fun _ he d hd => hclock d (hd ▸ he))
    ⟨(initial_inv c0).1, le_refl _, rfl⟩).2

theorem paced_bound (c0 : Int) (s : Sys) (h : Paced c0 s) :
    (flushes s.log : Int) ≤ (s.clock - c0) / FLUSH_INTERVAL_SEC := by
  obtain ⟨hc0, h2⟩ := h
  unfold FLUSH_INTERVAL_SEC at *
  cases hm : s.monitor with
  | none =>
    simp only [hm] at h2
    omega
  | some m =>
    simp only [hm] at h2
    by_cases hpc : m.pc = MonitorPc.init
    · rw [if_pos hpc] at h2
      omega
    · rw [if_neg hpc] at h2
      have hd : 0 ≤ mon_due m := by unfold mon_due; split <;> omega
      omega

/-! ## The properties of the specification -/

/-- C1: when `N` records are split over `W` threads with `1 ≤ W ≤ N`, thread 0
starts at id 0, thread `i+1` starts right after the last id of thread `i`,
thread `W-1` ends at `N-1`, no range is empty, the ranges are pairwise
disjoint, and an id lies in `[0, N)` exactly when it lies in the range of
some thread; the intermediate values of the computation stay within `[0, N]`,
so that it is the same in 32-bit `int` arithmetic; and in every state of the
process the `k`-th write thread that `main` created holds
`start_id NUM_FILES num_threads k` and `end_id NUM_FILES num_threads k`, with
`k < num_threads`. -/
theorem partition_exact (N W : Int) (hW : 1 ≤ W) (hN : W ≤ N) :
    start_id N W 0 = 0 ∧
    (∀ i : Int, 0 ≤ i → i + 1 < W → start_id N W (i + 1) = end_id N W i + 1) ∧
    end_id N W (W - 1) = N - 1 ∧
    (∀ i : Int, 0 ≤ i → i < W → start_id N W i ≤ end_id N W i) ∧
    (∀ i j : Int, 0 ≤ i → i < j → j < W → end_id N W i < start_id N W j) ∧
    (∀ id : Int, (0 ≤ id ∧ id < N) ↔
      ∃ i : Int, 0 ≤ i ∧ i < W ∧ start_id N W i ≤ id ∧ id ≤ end_id N W i) ∧
    (∀ i : Int, 0 ≤ i → i < W →
      0 ≤ i * files_per_thread N W ∧ (i + 1) * files_per_thread N W ≤ N ∧
      0 ≤ start_id N W i ∧ end_id N W i ≤ N - 1) ∧
    (∀ (atoi : String → Int) (argv : List String) (clock0 : Int) (evs : List Event) (k : Nat)
        (t : WriteThread),
      (exec atoi argv (Sys.initial clock0) evs).threads[k]? = some t →
      t.targ.start_id =
        start_id NUM_FILES (exec atoi argv (Sys.initial clock0) evs).main.num_threads k ∧
      t.targ.end_id =
        end_id NUM_FILES (exec atoi argv (Sys.initial clock0) evs).main.num_threads k ∧
      (k : Int) < (exec atoi argv (Sys.initial clock0) evs).main.num_threads) := by
  obtain ⟨hq, hr0, hrW, hd⟩ := div_facts N W hW hN
  have hq0 : 0 ≤ files_per_thread N W := by omega
  have h0 := start_zero N W hr0
  have hlast := start_last N W hrW hd
  have hne : ∀ i : Int, start_id N W i ≤ end_id N W i := by
    intro i
    have h2 := range_size_eq N W i
    unfold range_size at h2
    split at h2 <;> omega
  refine ⟨h0, ?_, ?_, ?_, ?_, ?_, ?_, ?_⟩
  · intro i _ _
    have := end_succ N W i
    omega
  · have := end_succ N W (W - 1)
    rw [sub_add_cancel] at this
    omega
  · intro i _ _
    exact hne i
  · intro i j _ hij _
    have h1 := end_succ N W i
    have h2 := start_mono N W (i + 1) j hq0 (by omega)
    omega
  · intro id
    constructor
    · rintro ⟨hid0, hidN⟩
      have hc := cover_below N W W.toNat id (by omega)
        (by rw [Int.toNat_of_nonneg (by omega)]; omega)
      obtain ⟨i, hi0, hiW, hs, he⟩ := hc
      rw [Int.toNat_of_nonneg (by omega)] at hiW
      exact ⟨i, hi0, hiW, hs, he⟩
    · rintro ⟨i, hi0, hiW, hs, he⟩
      have h1 := start_mono N W 0 i hq0 hi0
      have h2 := end_succ N W i
      have h3 := start_mono N W (i + 1) W hq0 (by omega)
      omega
  · intro i hi0 hiW
    have h1 := start_mono N W 0 i hq0 hi0
    have h2 := end_succ N W i
    have h3 := start_mono N W (i + 1) W hq0 (by omega)
    have h4 : 0 ≤ i * files_per_thread N W := Int.mul_nonneg hi0 hq0
    have h5 : (i + 1) * files_per_thread N W ≤ W * files_per_thread N W :=
      Int.mul_le_mul_of_nonneg_right (by omega) hq0
    exact ⟨h4, by omega, by omega, by omega⟩
  · intro atoi argv clock0 evs k t hk
    exact (reachable_assigned atoi argv clock0 evs).2.2 k t hk

/-- Witness of C1: the split of the 5000 records over 3 threads. -/
theorem partition_exact_witness :
    (1 : Int) ≤ 3 ∧ (3 : Int) ≤ NUM_FILES ∧
    start_id NUM_FILES 3 0 = 0 ∧
    (∀ i : Int, 0 ≤ i → i + 1 < 3 → start_id NUM_FILES 3 (i + 1) = end_id NUM_FILES 3 i + 1) ∧
    end_id NUM_FILES 3 (3 - 1) = NUM_FILES - 1 ∧
    (∀ i : Int, 0 ≤ i → i < 3 → start_id NUM_FILES 3 i ≤ end_id NUM_FILES 3 i) ∧
    (∀ i j : Int, 0 ≤ i → i < j → j < 3 → end_id NUM_FILES 3 i < start_id NUM_FILES 3 j) ∧
    (∀ id : Int, (0 ≤ id ∧ id < NUM_FILES) ↔
      ∃ i : Int, 0 ≤ i ∧ i < 3 ∧ start_id NUM_FILES 3 i ≤ id ∧ id ≤ end_id NUM_FILES 3 i) ∧
    (∀ i : Int, 0 ≤ i → i < 3 →
      0 ≤ i * files_per_thread NUM_FILES 3 ∧ (i + 1) * files_per_thread NUM_FILES 3 ≤ NUM_FILES ∧
      0 ≤ start_id NUM_FILES 3 i ∧ end_id NUM_FILES 3 i ≤ NUM_FILES - 1) :=
  ⟨by decide, by decide,
    (partition_exact NUM_FILES 3 (by decide) (by decide)).1,
    (partition_exact NUM_FILES 3 (by decide) (by decide)).2.1,
    (partition_exact NUM_FILES 3 (by decide) (by decide)).2.2.1,
    (partition_exact NUM_FILES 3 (by decide) (by decide)).2.2.2.1,
    (partition_exact NUM_FILES 3 (by decide) (by decide)).2.2.2.2.1,
    (partition_exact NUM_FILES 3 (by decide) (by decide)).2.2.2.2.2.1,
    (partition_exact NUM_FILES 3 (by decide) (by decide)).2.2.2.2.2.2.1⟩

/-- C2: when `N` records are split over `W` threads with `1 ≤ W ≤ N`, the
variables `files_per_thread` and `remainder` are `q = N / W` and `r = N mod W`,
and the range of thread `i` holds exactly `q + 1` ids when `i < r` and exactly
`q` ids when `i ≥ r`; every range holds at least one id and no two range sizes
differ by more than one. -/
theorem partition_sizes (N W : Int) (hW : 1 ≤ W) (hN : W ≤ N) :
    files_per_thread N W = N / W ∧ remainder N W = N % W ∧
    ∀ i : Int, 0 ≤ i → i < W →
      (i < N % W → range_size N W i = N / W + 1) ∧
      (N % W ≤ i → range_size N W i = N / W) ∧
      ((Finset.Icc (start_id N W i) (end_id N W i)).card : Int) = range_size N W i ∧
      1 ≤ range_size N W i ∧
      (∀ j : Int, 0 ≤ j → j < W → range_size N W i ≤ range_size N W j + 1) := by
  obtain ⟨hq, hr0, hrW, hd⟩ := div_facts N W hW hN
  have hqe : files_per_thread N W = N / W := Int.tdiv_eq_ediv (by omega) (by omega)
  have hre : remainder N W = N % W := by
    have h3 := Int.emod_add_ediv N W
    rw [hqe] at hd
    omega
  refine ⟨hqe, hre, ?_⟩
  intro i _ _
  have hs := range_size_eq N W i
  rw [← hqe, ← hre]
  refine ⟨?_, ?_, ?_, ?_, ?_⟩
  · intro h; rw [hs, if_pos h]
  · intro h; rw [hs, if_neg (by omega)]
  · rw [Int.card_Icc]
    have h1 : 1 ≤ range_size N W i := by rw [hs]; split <;> omega
    unfold range_size at h1 ⊢
    rw [Int.toNat_of_nonneg (by omega)]
    ring
  · rw [hs]; split <;> omega
  · intro j _ _
    have hj := range_size_eq N W j
    rw [hs, hj]
    split <;> split <;> omega

/-- Witness of C2: the split of the 5000 records over 3 threads, `q = 1666`
and `r = 2`. -/
theorem partition_sizes_witness :
    (1 : Int) ≤ 3 ∧ (3 : Int) ≤ NUM_FILES ∧
    files_per_thread NUM_FILES 3 = NUM_FILES / 3 ∧ remainder NUM_FILES 3 = NUM_FILES % 3 ∧
    ∀ i : Int, 0 ≤ i → i < 3 →
      (i < NUM_FILES % 3 → range_size NUM_FILES 3 i = NUM_FILES / 3 + 1) ∧
      (NUM_FILES % 3 ≤ i → range_size NUM_FILES 3 i = NUM_FILES / 3) ∧
      ((Finset.Icc (start_id NUM_FILES 3 i) (end_id NUM_FILES 3 i)).card : Int) =
        range_size NUM_FILES 3 i ∧
      1 ≤ range_size NUM_FILES 3 i ∧
      (∀ j : Int, 0 ≤ j → j < 3 → range_size NUM_FILES 3 i ≤ range_size NUM_FILES 3 j + 1) :=
  ⟨by decide, by decide, partition_sizes NUM_FILES 3 (by decide) (by decide)⟩

/-- C3: when `main` prints the final summary, the byte figures it reports are
`dat_write_bytes w`, `info_write_bytes b` and `total_write_bytes w b` for the
counter values `w` and `b`; in unsigned 64-bit arithmetic the total is
`w * 64 + b * 450560` and it is the sum of the two other figures, and these
equalities hold without reduction whenever `w * 64 + b * 450560 < 2^64`. -/
theorem total_write_amount (atoi : String → Int) (argv : List String) (oc : MainOutcome)
    (s : Sys) (hpc : s.main.pc = MainPc.report) :
    (main_step atoi argv oc s).log =
        s.log ++ [Effect.results s.g.g_write_count s.g.g_info_write_count
          (dat_write_bytes s.g.g_write_count) (info_write_bytes s.g.g_info_write_count)
          (total_write_bytes s.g.g_write_count s.g.g_info_write_count)] ∧
    (∀ w b : Nat,
      dat_write_bytes w = (w * 64) % 2 ^ 64 ∧
      info_write_bytes b = (b * 450560) % 2 ^ 64 ∧
      total_write_bytes w b = (w * 64 + b * 450560) % 2 ^ 64 ∧
      total_write_bytes w b = (dat_write_bytes w + info_write_bytes b) % 2 ^ 64 ∧
      (w * 64 + b * 450560 < 2 ^ 64 →
        total_write_bytes w b = w * 64 + b * 450560 ∧
        total_write_bytes w b = dat_write_bytes w + info_write_bytes b)) := by
  constructor
  · simp [main_step, hpc, final_results]
  · intro w b
    simp only [dat_write_bytes, info_write_bytes, total_write_bytes, u64_add, u64_mul, DAT_SIZE,
      INFO_SIZE, UINT64_MOD]
    refine ⟨rfl, ?_, ?_, ?_, ?_⟩
    · omega
    · omega
    · omega
    · intro h
      omega

/-- Witness of C3: the summary of the run `batched_trace`, one record write
and two blob writes. -/
theorem total_write_amount_witness :
    reporting_state.main.pc = MainPc.report ∧
    (main_step atoi_digits ["emmc_test", "1", "30", "1"] MainOutcome.good reporting_state).log =
      reporting_state.log ++ [Effect.results reporting_state.g.g_write_count
        reporting_state.g.g_info_write_count
        (dat_write_bytes reporting_state.g.g_write_count)
        (info_write_bytes reporting_state.g.g_info_write_count)
        (total_write_bytes reporting_state.g.g_write_count
          reporting_state.g.g_info_write_count)] ∧
    total_write_bytes 1 2 = 1 * 64 + 2 * 450560 :=
  ⟨by decide,
    (total_write_amount atoi_digits ["emmc_test", "1", "30", "1"] MainOutcome.good
      reporting_state (by decide)).1,
    (((total_write_amount atoi_digits ["emmc_test", "1", "30", "1"] MainOutcome.good
      reporting_state (by decide)).2 1 2).2.2.2.2 (by decide)).1⟩

/-- C4, counterexample: in the run `eager_trace` of `emmc_test 0 300 2`, where
every call succeeds, both write threads have counted their first record and
neither has reached its `write_info_file()` yet: the record counter is 2 and
the blob counter is 1 (the initial persist), so the blob counter is below the
record counter. -/
theorem eager_two_threads_counterexample :
    (exec atoi_digits ["emmc_test", "0", "300", "2"] (Sys.initial 0) eager_trace).main.mode = 0 ∧
    (exec atoi_digits ["emmc_test", "0", "300", "2"] (Sys.initial 0) eager_trace).g.g_write_count = 2 ∧
    (exec atoi_digits ["emmc_test", "0", "300", "2"] (Sys.initial 0)
      eager_trace).g.g_info_write_count = 1 ∧
    info_calls (exec atoi_digits ["emmc_test", "0", "300", "2"] (Sys.initial 0) eager_trace).log =
      info_ok (exec atoi_digits ["emmc_test", "0", "300", "2"] (Sys.initial 0) eager_trace).log ∧
    ¬ ((exec atoi_digits ["emmc_test", "0", "300", "2"] (Sys.initial 0)
          eager_trace).g.g_info_write_count ≥
       (exec atoi_digits ["emmc_test", "0", "300", "2"] (Sys.initial 0)
          eager_trace).g.g_write_count) := by
  decide

/-- C4, amended: under the eager strategy (mode 0), in every state of the
process, as long as fewer than 2^64 blob persists were counted, the record
counter is at most the blob counter plus the number of write threads standing
between their counter increment and their `write_info_file()` plus the number
of calls of `write_info_file` that failed; so the blob counter is at least the
record counter whenever no write thread stands there and no call has failed. -/
theorem eager_persists_keep_up (atoi : String → Int) (argv : List String) (c0 : Int)
    (evs : List Event)
    (hmode : (exec atoi argv (Sys.initial c0) evs).main.mode = 0)
    (hwrap : info_ok (exec atoi argv (Sys.initial c0) evs).log < UINT64_MOD) :
    (exec atoi argv (Sys.initial c0) evs).g.g_write_count ≤
      (exec atoi argv (Sys.initial c0) evs).g.g_info_write_count +
      count_pc WritePc.info (exec atoi argv (Sys.initial c0) evs).threads +
      (info_calls (exec atoi argv (Sys.initial c0) evs).log -
        info_ok (exec atoi argv (Sys.initial c0) evs).log) ∧
    (count_pc WritePc.info (exec atoi argv (Sys.initial c0) evs).threads = 0 →
      info_calls (exec atoi argv (Sys.initial c0) evs).log =
        info_ok (exec atoi argv (Sys.initial c0) evs).log →
      (exec atoi argv (Sys.initial c0) evs).g.g_write_count ≤
        (exec atoi argv (Sys.initial c0) evs).g.g_info_write_count) := by
  obtain ⟨hs, hc, he⟩ := reachable_inv atoi argv c0 evs
  generalize exec atoi argv (Sys.initial c0) evs = s at *
  obtain ⟨h5, h6, h7⟩ := hc
  have hle := info_ok_le_calls s.log
  have hall : ∀ t ∈ s.threads, t.targ.mode = 0 := by
    intro t ht
    rw [hs.2.2.1 t ht, hmode]
  have hE := he hall
  have hw : s.g.g_write_count ≤ dat_writes s.log - count_pc WritePc.count s.threads := by
    rw [h6]; exact Nat.mod_le _ _
  have hi : s.g.g_info_write_count = info_ok s.log := by
    rw [h7]; exact Nat.mod_eq_of_lt hwrap
  constructor
  · omega
  · intro h1 h2
    omega

/-- Witness of C4, amended: the run `eager_trace`, with two write threads
standing before their `write_info_file()`. -/
theorem eager_persists_keep_up_witness :
    (exec atoi_digits ["emmc_test", "0", "300", "2"] (Sys.initial 0) eager_trace).main.mode = 0 ∧
    info_ok (exec atoi_digits ["emmc_test", "0", "300", "2"] (Sys.initial 0) eager_trace).log <
      UINT64_MOD ∧
    (exec atoi_digits ["emmc_test", "0", "300", "2"] (Sys.initial 0) eager_trace).g.g_write_count ≤
      (exec atoi_digits ["emmc_test", "0", "300", "2"] (Sys.initial 0)
        eager_trace).g.g_info_write_count +
      count_pc WritePc.info
        (exec atoi_digits ["emmc_test", "0", "300", "2"] (Sys.initial 0) eager_trace).threads +
      (info_calls (exec atoi_digits ["emmc_test", "0", "300", "2"] (Sys.initial 0) eager_trace).log -
        info_ok (exec atoi_digits ["emmc_test", "0", "300", "2"] (Sys.initial 0)
          eager_trace).log) :=
  ⟨by decide, by decide,
    (eager_persists_keep_up atoi_digits ["emmc_test", "0", "300", "2"] 0 eager_trace
      (by decide) (by decide)).1⟩

/-- C5, counterexample: the complete run `batched_trace` of `emmc_test 1 30 1`,
in which every call succeeds and the clock advances by one per second slept,
ends with two blob persists (the initial one and one flush at second 30),
more than `⌈30 / 30⌉ = 1`; and the complete run `clock_set_trace` of
`emmc_test 1 2 1`, in which the wall clock is set forward by 30 seconds twice,
ends with two flushes by the monitor thread and three blob persists, more than
`⌈2 / 30⌉ = 1`. -/
theorem batched_thirty_seconds_counterexample :
    ((exec atoi_digits ["emmc_test", "1", "30", "1"] (Sys.initial 0) batched_trace).main.pc =
      MainPc.exited 0 ∧
    (exec atoi_digits ["emmc_test", "1", "30", "1"] (Sys.initial 0) batched_trace).main.mode = 1 ∧
    (exec atoi_digits ["emmc_test", "1", "30", "1"] (Sys.initial 0)
      batched_trace).main.duration = 30 ∧
    (exec atoi_digits ["emmc_test", "1", "30", "1"] (Sys.initial 0) batched_trace).clock = 30 ∧
    info_ok (exec atoi_digits ["emmc_test", "1", "30", "1"] (Sys.initial 0) batched_trace).log = 2 ∧
    (exec atoi_digits ["emmc_test", "1", "30", "1"] (Sys.initial 0)
      batched_trace).g.g_info_write_count = 2 ∧
    ceil_intervals 30 = 1 ∧
    ¬ ((info_ok (exec atoi_digits ["emmc_test", "1", "30", "1"] (Sys.initial 0)
          batched_trace).log : Int) ≤ ceil_intervals 30)) ∧
    ((exec atoi_digits ["emmc_test", "1", "2", "1"] (Sys.initial 0) clock_set_trace).main.pc =
      MainPc.exited 0 ∧
    (exec atoi_digits ["emmc_test", "1", "2", "1"] (Sys.initial 0) clock_set_trace).main.mode = 1 ∧
    (exec atoi_digits ["emmc_test", "1", "2", "1"] (Sys.initial 0)
      clock_set_trace).main.duration = 2 ∧
    flushes (exec atoi_digits ["emmc_test", "1", "2", "1"] (Sys.initial 0) clock_set_trace).log = 2 ∧
    info_ok (exec atoi_digits ["emmc_test", "1", "2", "1"] (Sys.initial 0) clock_set_trace).log = 3 ∧
    (exec atoi_digits ["emmc_test", "1", "2", "1"] (Sys.initial 0)
      clock_set_trace).g.g_info_write_count = 3 ∧
    ceil_intervals 2 = 1 ∧
    ¬ ((flushes (exec atoi_digits ["emmc_test", "1", "2", "1"] (Sys.initial 0)
          clock_set_trace).log : Int) ≤ ceil_intervals 2)) := by
  decide

/-- C5, amended: under the batched strategy (mode 1), in every state of a
process whose wall clock never goes backwards, the number of calls of
`write_info_file`, hence the number of blob persists and the blob counter, is
at most one (the initial persist of `main`) plus the number of whole intervals
of `FLUSH_INTERVAL_SEC` seconds by which the clock has advanced since the
start of the process; and the number of flushes by the monitor thread is at
most that number of whole intervals. -/
theorem batched_persists_bound (atoi : String → Int) (argv : List String) (c0 : Int)
    (evs : List Event) (hclock : ∀ d, Event.advance d ∈ evs → 0 ≤ d)
    (hmode : (exec atoi argv (Sys.initial c0) evs).main.mode = 1) :
    (info_calls (exec atoi argv (Sys.initial c0) evs).log : Int) ≤
      1 + ((exec atoi argv (Sys.initial c0) evs).clock - c0) / FLUSH_INTERVAL_SEC ∧
    info_ok (exec atoi argv (Sys.initial c0) evs).log ≤
      info_calls (exec atoi argv (Sys.initial c0) evs).log ∧
    (exec atoi argv (Sys.initial c0) evs).g.g_info_write_count ≤
      info_ok (exec atoi argv (Sys.initial c0) evs).log ∧
    (flushes (exec atoi argv (Sys.initial c0) evs).log : Int) ≤
      ((exec atoi argv (Sys.initial c0) evs).clock - c0) / FLUSH_INTERVAL_SEC := by
  obtain ⟨⟨hs, hc, he⟩, ht⟩ := reachable_timed atoi argv c0 evs hclock
  have hp := paced_bound c0 _ (reachable_paced atoi argv c0 evs hclock)
  generalize exec atoi argv (Sys.initial c0) evs = s at *
  refine ⟨?_, info_ok_le_calls s.log, ?_, hp⟩
  · obtain ⟨hc0, ht2⟩ := ht
    have h2 := ht2 hmode
    unfold FLUSH_INTERVAL_SEC at *
    cases hm : s.monitor with
    | none =>
      simp only [hm] at h2
      omega
    | some m =>
      simp only [hm] at h2
      by_cases hpc : m.pc = MonitorPc.init
      · rw [if_pos hpc] at h2
        omega
      · rw [if_neg hpc] at h2
        have hd : 0 ≤ mon_due m := by unfold mon_due; split <;> omega
        omega
  · rw [hc.2.2]; exact Nat.mod_le _ _

/-- Witness of C5, amended: the run `batched_trace`, whose clock advances by
30 seconds and which makes two calls of `write_info_file`. -/
theorem batched_persists_bound_witness :
    (∀ d, Event.advance d ∈ batched_trace → 0 ≤ d) ∧
    (exec atoi_digits ["emmc_test", "1", "30", "1"] (Sys.initial 0) batched_trace).main.mode = 1 ∧
    (info_calls (exec atoi_digits ["emmc_test", "1", "30", "1"] (Sys.initial 0)
        batched_trace).log : Int) ≤
      1 + ((exec atoi_digits ["emmc_test", "1", "30", "1"] (Sys.initial 0) batched_trace).clock - 0) /
        FLUSH_INTERVAL_SEC :=
  ⟨batched_trace_clock, by decide,
    (batched_persists_bound atoi_digits ["emmc_test", "1", "30", "1"] 0 batched_trace
      batched_trace_clock (by decide)).1⟩

/-- C6: when the monitor thread stands at its evaluation (it found
`elapsed ≥ FLUSH_INTERVAL_SEC`) and reads the value `u` of `g_files_updated`,
the evaluation itself makes no call of `write_info_file`, and the flush that
follows makes exactly one call if the mode is 1 and `u > 0` and none otherwise
(none if `u = 0`, none in mode 0); no other step of the monitor thread makes a
call; and the thread enters the evaluation exactly when the clock it reads
after its sleep is at least `FLUSH_INTERVAL_SEC` past `start_time`. -/
theorem flush_controller_evaluation (main_mode now now2 : Int) (ioc ioc2 : InfoOutcome)
    (m : MonitorThread) (g g2 : Globals) (hpc : m.pc = MonitorPc.evaluate) :
    (monitor_thread_step main_mode now ioc m g).1.pc = MonitorPc.flush ∧
    (monitor_thread_step main_mode now ioc m g).1.updated = g.g_files_updated ∧
    (monitor_thread_step main_mode now ioc m g).1.mode = m.mode ∧
    info_calls (monitor_thread_step main_mode now ioc m g).2.2 = 0 ∧
    info_calls (monitor_thread_step main_mode now2 ioc2
        (monitor_thread_step main_mode now ioc m g).1 g2).2.2 =
      (if m.mode = 1 ∧ g.g_files_updated > 0 then 1 else 0) ∧
    (monitor_thread_step main_mode now2 ioc2
        (monitor_thread_step main_mode now ioc m g).1 g2).1.pc = MonitorPc.restart ∧
    (∀ (m0 : MonitorThread) (g0 : Globals),
      (m0.pc ≠ MonitorPc.flush ∨ m0.mode ≠ 1 ∨ m0.updated ≤ 0) →
      info_calls (monitor_thread_step main_mode now ioc m0 g0).2.2 = 0) ∧
    (∀ (m0 : MonitorThread) (g0 : Globals), m0.pc = MonitorPc.sleep →
      ((monitor_thread_step main_mode now ioc m0 g0).1.pc = MonitorPc.evaluate ↔
        now - m0.start_time ≥ FLUSH_INTERVAL_SEC)) := by
  refine ⟨?_, ?_, ?_, ?_, ?_, ?_, ?_, ?_⟩
  · simp [monitor_thread_step, hpc]
  · simp [monitor_thread_step, hpc]
  · simp [monitor_thread_step, hpc]
  · simp [monitor_thread_step, hpc]
  · simp only [monitor_thread_step, hpc]
    split <;> simp
  · simp only [monitor_thread_step, hpc]
    split <;> simp
  · intro m0 g0 h
    cases hp : m0.pc with
    | init => simp [monitor_thread_step, hp]
    | while_test => simp only [monitor_thread_step, hp]; split <;> simp
    | sleep => simp only [monitor_thread_step, hp]; split <;> simp
    | evaluate => simp [monitor_thread_step, hp]
    | flush =>
      simp only [monitor_thread_step, hp]
      rw [if_neg]
      · simp
      · rintro ⟨h1, h2⟩
        rcases h with h | h | h
        · exact h hp
        · exact h h1
        · omega
    | restart => simp [monitor_thread_step, hp]
    | exited => simp [monitor_thread_step, hp]
  · intro m0 g0 hp
    simp only [monitor_thread_step, hp]
    split <;> simp_all

/-- Witness of C6: a monitor thread in mode 1 that reads the value 3. -/
theorem flush_controller_evaluation_witness :
    sample_monitor.pc = MonitorPc.evaluate ∧
    info_calls (monitor_thread_step 1 31 InfoOutcome.good
        (monitor_thread_step 1 30 InfoOutcome.good
          sample_monitor
          sample_globals).1
        sample_globals_reset).2.2 =
      (if (1 : Int) = 1 ∧ (3 : Int) > 0 then 1 else 0) :=
  ⟨rfl,
    (flush_controller_evaluation 1 30 31 InfoOutcome.good InfoOutcome.good
      sample_monitor
      sample_globals
      sample_globals_reset
      rfl).2.2.2.2.1⟩

/-- C7: for every step of the process (of `main`, of a write thread, of the
monitor thread, of the statistics thread, a signal, a change of the clock),
as long as the two 64-bit counters are below their maximum and
`g_files_updated` is below `INT_MAX`: the record counter and the blob counter
after the step are at least their values before it; after the monitor's
evaluation step `g_files_updated` is exactly zero; and after any other step
`g_files_updated` is unchanged or larger by one. -/
theorem counters_monotone (atoi : String → Int) (argv : List String) (s : Sys) (e : Event)
    (hw : s.g.g_write_count + 1 < UINT64_MOD) (hi : s.g.g_info_write_count + 1 < UINT64_MOD)
    (hu : s.g.g_files_updated < INT_MAX) :
    s.g.g_write_count ≤ (step atoi argv s e).g.g_write_count ∧
    s.g.g_info_write_count ≤ (step atoi argv s e).g.g_info_write_count ∧
    (is_evaluation s e = true → (step atoi argv s e).g.g_files_updated = 0) ∧
    (is_evaluation s e = false →
      (step atoi argv s e).g.g_files_updated = s.g.g_files_updated ∨
      (step atoi argv s e).g.g_files_updated = s.g.g_files_updated + 1) := by
  by_cases hal : s.alive = true
  swap
  · have hal2 : s.alive = false := by simpa using hal
    rw [step_dead atoi argv s e hal2]
    refine ⟨le_refl _, le_refl _, ?_, fun _ => Or.inl rfl⟩
    intro h
    simp [is_evaluation, hal2] at h
  cases e with
  | main oc =>
    have h := main_step_mono atoi argv oc s hi
    rw [step_main atoi argv s oc hal]
    refine ⟨h.1, h.2.1, ?_, fun _ => Or.inl h.2.2⟩
    intro he
    simp [is_evaluation] at he
  | write k doc ioc =>
    have hne : ¬ is_evaluation s (Event.write k doc ioc) = true := by
      simp [is_evaluation]
    cases hk : s.threads[k]? with
    | none =>
      rw [step_write_none atoi argv s k doc ioc hk]
      exact ⟨le_refl _, le_refl _, fun h => absurd h hne, fun _ => Or.inl rfl⟩
    | some t =>
      have h := write_thread_step_mono doc ioc t s.g hw hi hu
      rw [step_write_some atoi argv s k doc ioc t hal hk]
      exact ⟨h.1, h.2.1, fun h => absurd h hne, fun _ => h.2.2⟩
  | monitor ioc =>
    cases hm : s.monitor with
    | none =>
      rw [step_monitor_none atoi argv s ioc hm]
      refine ⟨le_refl _, le_refl _, ?_, fun _ => Or.inl rfl⟩
      intro he
      simp [is_evaluation, hm] at he
    | some m =>
      have h := monitor_thread_step_mono s.main.mode s.clock ioc m s.g hi
      rw [step_monitor_some atoi argv s ioc m hal hm]
      refine ⟨h.1, h.2.1, ?_, ?_⟩
      · intro he
        simp only [is_evaluation, hal, hm, Bool.true_and, decide_eq_true_eq] at he
        exact h.2.2.1 he
      · intro he
        simp only [is_evaluation, hal, hm, Bool.true_and, decide_eq_false_iff_not] at he
        left
        exact h.2.2.2 he
  | stats =>
    have hne : ¬ is_evaluation s Event.stats = true := by
      simp [is_evaluation]
    cases hs : s.stats with
    | none =>
      rw [step_stats_none atoi argv s hs]
      exact ⟨le_refl _, le_refl _, fun h => absurd h hne, fun _ => Or.inl rfl⟩
    | some st =>
      rw [step_stats_some atoi argv s st hal hs]
      have hg := stats_thread_step_globals s.clock st s.g
      refine ⟨?_, ?_, fun h => absurd h hne, fun _ => Or.inl ?_⟩
      · show s.g.g_write_count ≤ (stats_thread_step s.clock st s.g).2.1.g_write_count
        rw [hg]
      · show s.g.g_info_write_count ≤ (stats_thread_step s.clock st s.g).2.1.g_info_write_count
        rw [hg]
      · show (stats_thread_step s.clock st s.g).2.1.g_files_updated = s.g.g_files_updated
        rw [hg]
  | signal =>
    have hne : ¬ is_evaluation s Event.signal = true := by
      simp [is_evaluation]
    rw [step_signal atoi argv s hal]
    split
    · exact ⟨le_refl _, le_refl _, fun h => absurd h hne, fun _ => Or.inl rfl⟩
    · exact ⟨le_refl _, le_refl _, fun h => absurd h hne, fun _ => Or.inl rfl⟩
  | advance d =>
    have hne : ¬ is_evaluation s (Event.advance d) = true := by
      simp [is_evaluation]
    rw [step_advance atoi argv s d hal]
    exact ⟨le_refl _, le_refl _, fun h => absurd h hne, fun _ => Or.inl rfl⟩

/-- Witness of C7: the step of a write thread through its critical section,
which increments the record counter and `g_files_updated`, and the evaluation
step of the monitor thread, which resets `g_files_updated`. -/
theorem counters_monotone_witness :
    (counting_state.g.g_write_count + 1 < UINT64_MOD ∧
     counting_state.g.g_info_write_count + 1 < UINT64_MOD ∧
     counting_state.g.g_files_updated < INT_MAX) ∧
    (counting_state.g.g_write_count ≤
      (step atoi_digits ["emmc_test", "0", "300", "2"] counting_state
        (Event.write 0 DatOutcome.good InfoOutcome.good)).g.g_write_count ∧
     counting_state.g.g_info_write_count ≤
      (step atoi_digits ["emmc_test", "0", "300", "2"] counting_state
        (Event.write 0 DatOutcome.good InfoOutcome.good)).g.g_info_write_count) ∧
    (evaluating_state.g.g_write_count + 1 < UINT64_MOD ∧
     evaluating_state.g.g_info_write_count + 1 < UINT64_MOD ∧
     evaluating_state.g.g_files_updated < INT_MAX ∧
     is_evaluation evaluating_state (Event.monitor InfoOutcome.good) = true) ∧
    (step atoi_digits ["emmc_test", "1", "30", "1"] evaluating_state
      (Event.monitor InfoOutcome.good)).g.g_files_updated = 0 :=
  ⟨⟨by decide, by decide, by decide⟩,
    ⟨(counters_monotone atoi_digits ["emmc_test", "0", "300", "2"] counting_state
        (Event.write 0 DatOutcome.good InfoOutcome.good)
        (by decide) (by decide) (by decide)).1,
     (counters_monotone atoi_digits ["emmc_test", "0", "300", "2"] counting_state
        (Event.write 0 DatOutcome.good InfoOutcome.good)
        (by decide) (by decide) (by decide)).2.1⟩,
    ⟨by decide, by decide, by decide, by decide⟩,
    (counters_monotone atoi_digits ["emmc_test", "1", "30", "1"] evaluating_state
      (Event.monitor InfoOutcome.good) (by decide) (by decide) (by decide)).2.2.1 (by decide)⟩

/-- C8: when a write thread, in either mode, is about to rewrite record `id`
and `fopen` or `fwrite` fails, its step leaves the file-scope variables (the
three counters and `g_running`) unchanged and makes no call of
`write_info_file`; the thread has not returned: it stands at the test of the
`for` loop with `id + 1`, and if `id + 1` is still in its range and
`g_running` is set, its next step enters the loop body for `id + 1`. -/
theorem record_failure_skips (doc : DatOutcome) (ioc : InfoOutcome) (t : WriteThread)
    (g : Globals) (hpc : t.pc = WritePc.body)
    (hfail : doc.fopen_ok = false ∨ doc.fwrite_ok = false) :
    (write_thread_step doc ioc t g).2.1 = g ∧
    info_calls (write_thread_step doc ioc t g).2.2 = 0 ∧
    dat_writes (write_thread_step doc ioc t g).2.2 = 0 ∧
    (write_thread_step doc ioc t g).1.pc = WritePc.for_test ∧
    (write_thread_step doc ioc t g).1.id = t.id + 1 ∧
    (write_thread_step doc ioc t g).1.targ = t.targ ∧
    (∀ (doc2 : DatOutcome) (ioc2 : InfoOutcome) (g2 : Globals),
      t.id + 1 ≤ t.targ.end_id → g2.g_running = true →
      (write_thread_step doc2 ioc2 (write_thread_step doc ioc t g).1 g2).1.pc = WritePc.body ∧
      (write_thread_step doc2 ioc2 (write_thread_step doc ioc t g).1 g2).1.id = t.id + 1) := by
  unfold write_thread_step
  rw [hpc]
  rcases hfail with h | h
  · simp [h]
    intro _ _ g2 h1 h2
    simp [h1, h2]
  · by_cases h0 : doc.fopen_ok = false
    · simp [h0]
      intro _ _ g2 h1 h2
      simp [h1, h2]
    · simp [h0, h]
      intro _ _ g2 h1 h2
      simp [h1, h2]

/-- Witness of C8: an eager thread whose `fopen` of record 3 fails. -/
theorem record_failure_skips_witness :
    sample_thread.pc = WritePc.body ∧
    (DatOutcome.open_failed.fopen_ok = false ∨
     DatOutcome.open_failed.fwrite_ok = false) ∧
    (write_thread_step DatOutcome.open_failed InfoOutcome.good
      sample_thread Globals.initial).2.1 = Globals.initial ∧
    info_calls (write_thread_step DatOutcome.open_failed InfoOutcome.good
      sample_thread Globals.initial).2.2 = 0 :=
  ⟨rfl, Or.inl rfl,
    (record_failure_skips DatOutcome.open_failed InfoOutcome.good
      sample_thread Globals.initial rfl (Or.inl rfl)).1,
    (record_failure_skips DatOutcome.open_failed InfoOutcome.good
      sample_thread Globals.initial rfl (Or.inl rfl)).2.1⟩

/-- C9, counterexample: when `malloc`, `fopen`, `fwrite` and `fflush` succeed
and `fsync` fails, `write_info_file` returns 0 and the blob counter is larger
by one: a failing step is reported as a success and counted. -/
theorem write_info_file_sync_failure_counted :
    (InfoOutcome.sync_failed : InfoOutcome).fsync_ok = false ∧
    (write_info_file InfoOutcome.sync_failed Globals.initial).1 = 0 ∧
    (write_info_file InfoOutcome.sync_failed Globals.initial).2.g_info_write_count =
      Globals.initial.g_info_write_count + 1 ∧
    ¬ ((write_info_file InfoOutcome.sync_failed Globals.initial).1 ≠ 0 ∧
       (write_info_file InfoOutcome.sync_failed
          Globals.initial).2.g_info_write_count = Globals.initial.g_info_write_count) := by
  decide

/-- C9, amended: if the buffer allocation, the opening of the blob file or the
write of the full buffer fails, `write_info_file` returns -1 and leaves all
file-scope variables unchanged; otherwise, whatever `fflush` and `fsync`
return, it returns 0 and increments the blob counter by one modulo 2^64, that
is by exactly one when the counter is below its maximum; in all cases the
record counter, `g_files_updated` and `g_running` are unchanged. -/
theorem write_info_file_spec (oc : InfoOutcome) (g : Globals) :
    ((oc.malloc_ok = false ∨ oc.fopen_ok = false ∨ oc.fwrite_ok = false) →
      (write_info_file oc g).1 = -1 ∧ (write_info_file oc g).2 = g) ∧
    ((oc.malloc_ok = true ∧ oc.fopen_ok = true ∧ oc.fwrite_ok = true) →
      (write_info_file oc g).1 = 0 ∧
      (write_info_file oc g).2.g_info_write_count = (g.g_info_write_count + 1) % 2 ^ 64 ∧
      (g.g_info_write_count + 1 < 2 ^ 64 →
        (write_info_file oc g).2.g_info_write_count = g.g_info_write_count + 1)) ∧
    (write_info_file oc g).2.g_write_count = g.g_write_count ∧
    (write_info_file oc g).2.g_files_updated = g.g_files_updated ∧
    (write_info_file oc g).2.g_running = g.g_running := by
  unfold write_info_file u64_incr UINT64_MOD
  refine ⟨?_, ?_, ?_, ?_, ?_⟩
  · rintro (h | h | h) <;> simp [h]
  · rintro ⟨h1, h2, h3⟩
    simp [h1, h2, h3]
  all_goals (split <;> try split <;> try split) <;> rfl

/-- Witness of C9, amended: a call whose `fopen` fails, and a call in which
everything succeeds. -/
theorem write_info_file_spec_witness :
    ((write_info_file InfoOutcome.open_failed Globals.initial).1 = -1 ∧
     (write_info_file InfoOutcome.open_failed Globals.initial).2 =
       Globals.initial) ∧
    (write_info_file InfoOutcome.good Globals.initial).1 = 0 ∧
    (write_info_file InfoOutcome.good Globals.initial).2.g_info_write_count =
      Globals.initial.g_info_write_count + 1 :=
  ⟨(write_info_file_spec InfoOutcome.open_failed Globals.initial).1 (Or.inr (Or.inl rfl)),
    ((write_info_file_spec InfoOutcome.good Globals.initial).2.1 ⟨rfl, rfl, rfl⟩).1,
    ((write_info_file_spec InfoOutcome.good Globals.initial).2.1 ⟨rfl, rfl, rfl⟩).2.2
      (by decide)⟩

/-- C10: for every `atoi` and every argument list, if the checks of `main`
pass then the mode is 0 or 1 and `num_threads` is in `[1, 5000]`, each value
being `atoi` of its argument when present and the default (1, 300, 100)
otherwise; if the given mode is neither 0 nor 1, or the given `num_threads` is
below 1 or above 5000, the checks fail with status 1 and a message, and then
in every state of the process there is no thread, the file-scope variables
have their initial values, and nothing but that message has been produced (no
directory, record file, blob write or thread); and in every state of every
process `mode` is 0 or 1 and `num_threads` is in `[1, 5000]`, so the divisor of
the split is never zero. -/
theorem argument_validation (atoi : String → Int) (argv : List String) :
    (∀ m d n : Int, parse_args atoi argv = ParseResult.run m d n →
      (m = 0 ∨ m = 1) ∧ 1 ≤ n ∧ n ≤ 5000 ∧
      m = (if argv.length > 1 then atoi (argv.getD 1 "") else 1) ∧
      d = (if argv.length > 2 then atoi (argv.getD 2 "") else 300) ∧
      n = (if argv.length > 3 then atoi (argv.getD 3 "") else 100)) ∧
    (((argv.length > 1 ∧ atoi (argv.getD 1 "") ≠ 0 ∧ atoi (argv.getD 1 "") ≠ 1) ∨
      (argv.length > 3 ∧ (atoi (argv.getD 3 "") < 1 ∨ atoi (argv.getD 3 "") > 5000))) →
      ∃ msg, parse_args atoi argv = ParseResult.fail 1 msg ∧
        (msg = Effect.usage ∨ msg = Effect.threads_error) ∧
        ∀ (c0 : Int) (evs : List Event),
          (exec atoi argv (Sys.initial c0) evs).threads = [] ∧
          (exec atoi argv (Sys.initial c0) evs).monitor = none ∧
          (exec atoi argv (Sys.initial c0) evs).stats = none ∧
          (exec atoi argv (Sys.initial c0) evs).g = Globals.initial ∧
          (((exec atoi argv (Sys.initial c0) evs).main.pc = MainPc.parse ∧
              (exec atoi argv (Sys.initial c0) evs).log = []) ∨
           ((exec atoi argv (Sys.initial c0) evs).main.pc = MainPc.exited 1 ∧
              (exec atoi argv (Sys.initial c0) evs).log = [msg]) ∨
           ((exec atoi argv (Sys.initial c0) evs).main.pc = MainPc.killed ∧
              (exec atoi argv (Sys.initial c0) evs).log = []))) ∧
    (∀ (c0 : Int) (evs : List Event),
      ((exec atoi argv (Sys.initial c0) evs).main.mode = 0 ∨
       (exec atoi argv (Sys.initial c0) evs).main.mode = 1) ∧
      1 ≤ (exec atoi argv (Sys.initial c0) evs).main.num_threads ∧
      (exec atoi argv (Sys.initial c0) evs).main.num_threads ≤ 5000) := by
  refine ⟨?_, ?_, ?_⟩
  · intro m d n h
    exact parse_args_run atoi argv m d n h
  · intro h
    obtain ⟨msg, hmsg⟩ := parse_args_fail atoi argv h
    refine ⟨msg, hmsg, parse_args_msg atoi argv 1 msg hmsg, ?_⟩
    intro c0 evs
    have := exec_invariant atoi argv (Rejected 1 msg) (fun _ => True)
      (fun s e _ hs => rejected_step atoi argv 1 msg hmsg s e hs) evs (Sys.initial c0)
      (fun _ _ => trivial)
      ⟨rfl, rfl, rfl, rfl, Or.inl ⟨rfl, rfl⟩⟩
    exact this
  · intro c0 evs
    have := exec_invariant atoi argv ValidConfig (fun _ => True)
      (fun s e _ hs => valid_config_step atoi argv s e hs) evs (Sys.initial c0)
      (fun _ _ => trivial)
      ⟨Or.inr rfl, by simp [Sys.initial], by simp [Sys.initial, NUM_FILES]⟩
    exact this

/-- Witness of C10: `emmc_test 2` is rejected and `emmc_test 0 60 8` passes
with mode 0, duration 60 and 8 threads. -/
theorem argument_validation_witness :
    (["emmc_test", "2"].length > 1 ∧ atoi_digits (["emmc_test", "2"].getD 1 "") ≠ 0 ∧
      atoi_digits (["emmc_test", "2"].getD 1 "") ≠ 1) ∧
    (∃ msg, parse_args atoi_digits ["emmc_test", "2"] = ParseResult.fail 1 msg ∧
      (msg = Effect.usage ∨ msg = Effect.threads_error) ∧
      ∀ (c0 : Int) (evs : List Event),
        (exec atoi_digits ["emmc_test", "2"] (Sys.initial c0) evs).threads = [] ∧
        (exec atoi_digits ["emmc_test", "2"] (Sys.initial c0) evs).monitor = none ∧
        (exec atoi_digits ["emmc_test", "2"] (Sys.initial c0) evs).stats = none ∧
        (exec atoi_digits ["emmc_test", "2"] (Sys.initial c0) evs).g = Globals.initial ∧
        (((exec atoi_digits ["emmc_test", "2"] (Sys.initial c0) evs).main.pc = MainPc.parse ∧
            (exec atoi_digits ["emmc_test", "2"] (Sys.initial c0) evs).log = []) ∨
         ((exec atoi_digits ["emmc_test", "2"] (Sys.initial c0) evs).main.pc = MainPc.exited 1 ∧
            (exec atoi_digits ["emmc_test", "2"] (Sys.initial c0) evs).log = [msg]) ∨
         ((exec atoi_digits ["emmc_test", "2"] (Sys.initial c0) evs).main.pc = MainPc.killed ∧
            (exec atoi_digits ["emmc_test", "2"] (Sys.initial c0) evs).log = []))) ∧
    parse_args atoi_digits ["emmc_test", "0", "60", "8"] = ParseResult.run 0 60 8 ∧
    ((0 : Int) = 0 ∨ (0 : Int) = 1) ∧ (1 : Int) ≤ 8 ∧ (8 : Int) ≤ 5000 :=
  ⟨by decide,
    (argument_validation atoi_digits ["emmc_test", "2"]).2.1 (Or.inl (by decide)),
    by decide,
    ((argument_validation atoi_digits ["emmc_test", "0", "60", "8"]).1 0 60 8 (by decide)).1,
    ((argument_validation atoi_digits ["emmc_test", "0", "60", "8"]).1 0 60 8 (by decide)).2.1,
    ((argument_validation atoi_digits ["emmc_test", "0", "60", "8"]).1 0 60 8 (by decide)).2.2.1⟩

end EmmcTest
